import Mathlib

/-!
GridFS command-line tool (`mongo/tools/files.cpp`) and `UpdateRequest`
(`mongo/db/ops/update_request.h`).

A shallow embedding of `Files::run` and of the `UpdateRequest` builder, with the
properties of the tool's specification stated and proved over it.

Conventions of the embedding:

* a BSON document is an association list from field names to elements;
* the document store behind `conn()` is a map from namespace strings to the list of
  documents of that collection, in collection order;
* `run` returns its exit code together with the log of every observable action it
  performed, each paired with the state of the store right after that action;
* calls into the client library are taken to return normally.
-/

set_option autoImplicit false

/-! BSON values, documents and queries -/

/-- The value of a BSON element; `eoo` is the element returned for a missing field. -/
inductive Elem where
  | eoo
  | str (s : String)
  | num (n : Int)
  | oid (n : Nat)
  | bin (bytes : List Nat)
  deriving DecidableEq, Repr

/-- One condition of a query document on a single field. -/
inductive Cond where
  | eq (e : Elem)
  | ne (e : Elem)
  | regex (pattern : String)
  deriving DecidableEq, Repr

/-- BSON document as built by `BSONObjBuilder`. -/
abbrev BSONObj := List (String × Elem)

/-- Query document: the conjunction of its conditions. -/
abbrev Query := List (String × Cond)

/-- Field access `obj[name]`: the first element of that name, `eoo` when there is none. -/
def BSONObj.get (o : BSONObj) (name : String) : Elem :=
  match o.find? (fun kv => kv.1 == name) with
  | some kv => kv.2
  | none => Elem.eoo

/-- Renders `BSONElement::str()`: the string value, empty for any other type. -/
def Elem.strValue : Elem → String
  | Elem.str s => s
  | _ => ""

/-- Renders `BSONElement::number()` cast to `long`: the numeric value, 0 for any other type. -/
def Elem.number : Elem → Int
  | Elem.num n => n
  | _ => 0

/-! Regular expressions (the fragment of PCRE needed here) -/

namespace Pcre

/-- A single-character matcher. -/
inductive Atom where
  | chr (c : Char)
  | any
  deriving DecidableEq, Repr

/-- Repetition attached to an atom. -/
inductive Quant where
  | one
  | star
  | plus
  | opt
  deriving DecidableEq, Repr

/-- Lexical token of a pattern. -/
inductive Tok where
  | atom (a : Atom)
  | quant (q : Quant)
  | bol
  | eol
  deriving DecidableEq, Repr

/-- An atom with its repetition. -/
structure Item where
  atom : Atom
  quant : Quant
  deriving DecidableEq, Repr

/-- A compiled pattern: anchored at the start or not, the items, anchored at the end or not. -/
structure Pattern where
  anchored : Bool
  items : List Item
  toEnd : Bool
  deriving DecidableEq, Repr

/-- ASCII letters and digits: after a backslash these have a special meaning in PCRE. -/
def isAsciiAlnum (c : Char) : Bool :=
  (97 ≤ c.toNat && c.toNat ≤ 122) || (65 ≤ c.toNat && c.toNat ≤ 90) ||
    (48 ≤ c.toNat && c.toNat ≤ 57)

/-- Modelled from the spec: part of the pattern language of the store, which is outside the
tool's sources. Token of an unescaped character; `none` for syntax outside the modelled
fragment (groups, classes, alternation, counted repetition). -/
def classify (c : Char) : Option Tok :=
  if c = '.' then some (Tok.atom Atom.any)
  else if c = '*' then some (Tok.quant Quant.star)
  else if c = '+' then some (Tok.quant Quant.plus)
  else if c = '?' then some (Tok.quant Quant.opt)
  else if c = '^' then some Tok.bol
  else if c = '$' then some Tok.eol
  else if c = '(' ∨ c = ')' ∨ c = '[' ∨ c = ']' ∨ c = '{' ∨ c = '}' ∨ c = '|' then none
  else some (Tok.atom (Atom.chr c))

/-- Modelled from the spec: the pattern language of the backing store (PCRE) is library code
outside the tool's sources. A backslash followed by a character that is not an ASCII letter or
digit stands for that character taken literally; an unescaped character is a metacharacter or
a literal. Patterns outside the fragment give `none`. -/
def lex : List Char → Option (List Tok)
  | [] => some []
  | c :: rest =>
    if c = '\\' then
      match rest with
      | [] => none
      | d :: rest2 =>
        if isAsciiAlnum d then none
        else (lex rest2).map (fun ts => Tok.atom (Atom.chr d) :: ts)
    else
      match classify c with
      | none => none
      | some t => (lex rest).map (fun ts => t :: ts)

/-- Modelled from the spec: part of the pattern language of the store. Groups tokens into
items: an atom with the repetition that follows it, if any; a final end-of-subject anchor is
reported in the second component. -/
def items : List Tok → Option (List Item × Bool)
  | [] => some ([], false)
  | [Tok.eol] => some ([], true)
  | Tok.atom a :: Tok.quant q :: rest =>
    (items rest).map (fun r => (Item.mk a q :: r.1, r.2))
  | Tok.atom a :: rest => (items rest).map (fun r => (Item.mk a Quant.one :: r.1, r.2))
  | _ => none

/-- Modelled from the spec: part of the pattern language of the store. Compiles a pattern
string; a leading circumflex anchors the match at the start. -/
def compile (pat : List Char) : Option Pattern :=
  match lex pat with
  | none => none
  | some (Tok.bol :: toks) => (items toks).map (fun r => Pattern.mk true r.1 r.2)
  | some toks => (items toks).map (fun r => Pattern.mk false r.1 r.2)

/-- Modelled from the spec: part of the pattern language of the store. Whether an atom accepts
a character; the dot accepts anything but a newline. -/
def Atom.accepts : Atom → Char → Bool
  | Atom.chr c, d => d == c
  | Atom.any, d => d != '\n'

/-- Modelled from the spec: part of the pattern language of the store. Repetition of an atom
followed by the continuation `k`. -/
def matchStar (a : Atom) (k : List Char → Bool) : List Char → Bool
  | [] => k []
  | c :: s => k (c :: s) || (a.accepts c && matchStar a k s)

/-- Modelled from the spec: part of the pattern language of the store. Matches the items at
the start of the subject; with `toEnd` the match must reach the end of the subject (or stop
right before a final newline). -/
def matchItems (toEnd : Bool) : List Item → List Char → Bool
  | [], s => !toEnd || s.isEmpty || s == ['\n']
  | Item.mk a Quant.one :: r, s =>
    match s with
    | [] => false
    | c :: s2 => a.accepts c && matchItems toEnd r s2
  | Item.mk a Quant.star :: r, s => matchStar a (matchItems toEnd r) s
  | Item.mk a Quant.plus :: r, s =>
    match s with
    | [] => false
    | c :: s2 => a.accepts c && matchStar a (matchItems toEnd r) s2
  | Item.mk a Quant.opt :: r, s =>
    matchItems toEnd r s ||
      (match s with
       | [] => false
       | c :: s2 => a.accepts c && matchItems toEnd r s2)

/-- Modelled from the spec: whether the pattern matches somewhere in the subject, as the store
evaluates a regex condition (a match may start anywhere unless the pattern is anchored). -/
def search (pat : String) (subject : String) : Option Bool :=
  (compile pat.data).map (fun p =>
    if p.anchored then matchItems p.toEnd p.items subject.data
    else subject.data.tails.any (matchItems p.toEnd p.items))

end Pcre

/-- Modelled from the spec: quoting of one character by `QuoteMeta`, which is library code
outside the tool's sources. -/
def quoteChar (c : Char) : List Char :=
  if c = '\x00' then ['\\', '0']
  else if !Pcre.isAsciiAlnum c && c != '_' && c.toNat < 128 then ['\\', c]
  else [c]

/-- Modelled from the spec: `pcrecpp::RE::QuoteMeta` is library code outside the tool's
sources; it quotes its argument so that every character with a special meaning in the pattern
language is taken literally: every ASCII character other than a letter, a digit or the
underscore gets a backslash, NUL becomes backslash-zero, other characters are copied. -/
def QuoteMeta (unquoted : String) : String :=
  String.mk (unquoted.data.flatMap quoteChar)

/-- Whether a document satisfies one condition on the field `name`. -/
def Cond.holds (name : String) (doc : BSONObj) : Cond → Bool
  | Cond.eq e => doc.get name == e
  | Cond.ne e => doc.get name != e
  | Cond.regex pattern =>
    match doc.get name with
    | Elem.str s => Pcre.search pattern s == some true
    | _ => false

/-- Whether a document satisfies every condition of a query. -/
def Query.matches (q : Query) (doc : BSONObj) : Bool :=
  q.all (fun kc => kc.2.holds kc.1 doc)

/-! The document store behind `conn()` -/

/-- State of the store: the documents of every collection, by namespace, in collection
order. -/
abbrev DB := String → List BSONObj

/-- Replaces the documents of one collection. -/
def DB.setColl (db : DB) (ns : String) (docs : List BSONObj) : DB :=
  fun n => if n = ns then docs else db n

/-- Modelled from the spec: `insert(collection, doc)` of the document-store client adds the
document at the end of the collection. -/
def DB.insert (db : DB) (ns : String) (doc : BSONObj) : DB :=
  db.setColl ns (db ns ++ [doc])

/-- Modelled from the spec: `query(collection, predicate) -> cursor` of the document-store
client; the cursor yields the documents that satisfy the predicate when the query is issued. -/
def DB.query (db : DB) (ns : String) (q : Query) : List BSONObj :=
  (db ns).filter q.matches

/-- Modelled from the spec: `remove(collection, predicate)` of the document-store client
deletes every document of the collection that satisfies the predicate. -/
def DB.remove (db : DB) (ns : String) (q : Query) : DB :=
  db.setColl ns ((db ns).filter (fun d => !q.matches d))

/-- Modelled from the spec: the first document of the collection that satisfies the predicate,
if any. -/
def DB.findOne (db : DB) (ns : String) (q : Query) : Option BSONObj :=
  (db ns).find? q.matches

/-! Observable actions -/

/-- The two output streams. -/
inductive OStream where
  | cout
  | cerr
  deriving DecidableEq, Repr

/-- An action of the tool that is visible from outside: output, or a call into the store. -/
inductive Event where
  | print (s : OStream) (text : String)
  | printObj (label : String) (obj : BSONObj)
  | printRow (filename : String) (length : Int)
  | printOptions (s : OStream)
  | newGridFS (dbName : String) (coll : String)
  | list (q : Query)
  | findFile (filename : String)
  | write (file : BSONObj) (dest : String)
  | setChunkSize (size : Int)
  | storeFile (fileName : String) (remoteName : String) (contentType : String)
  | insert (ns : String) (doc : BSONObj)
  | query (ns : String) (q : Query)
  | remove (ns : String) (q : Query)
  | removeFile (filename : String)
  | getLastError
  deriving DecidableEq, Repr

/-- Actions in program order, each with the state of the store right after it. -/
abbrev Log := List (Event × DB)

/-- Actions that leave the store as it is. -/
def stamp (db : DB) (es : List Event) : Log :=
  es.map (fun e => (e, db))

/-- The actions of a log, without the states. -/
def Log.events (l : Log) : List Event :=
  l.map Prod.fst

/-- The states of a log, without the actions. -/
def Log.states (l : Log) : List DB :=
  l.map Prod.snd

/-- Whether the action is a call into the store: a listing, a lookup, a read of the chunks,
a write, a query, a removal or `getLastError`. -/
def Event.isStoreCall : Event → Bool
  | Event.list _ => true
  | Event.findFile _ => true
  | Event.write _ _ => true
  | Event.storeFile _ _ _ => true
  | Event.insert _ _ => true
  | Event.query _ _ => true
  | Event.remove _ _ => true
  | Event.removeFile _ => true
  | Event.getLastError => true
  | _ => false

/-! What the tool takes from outside its source file -/

/-- Values and collaborators that `files.cpp` uses and does not define. -/
structure Env where
  /-- Database name `_db` of the tool. -/
  dbName : String
  /-- Collection name `_coll` of the tool (`fs` unless overridden). -/
  coll : String
  /-- The constant `BSONObjMaxUserSize`. -/
  bsonObjMaxUserSize : Int
  /-- Chunk size of a `GridFS` object on which `setChunkSize` was not called. -/
  defaultChunkSize : Nat
  /-- Identity the store assigns to the next stored object. -/
  freshOID : Nat
  /-- Upload timestamp of the next stored object. -/
  now : Int
  /-- Content of the local files, by path. -/
  readLocal : String → List Nat
  /-- Content checksum. -/
  md5 : List Nat → String

/-- The parsed command line, as read through `getParam` and `hasParam`. -/
structure Params where
  /-- Value of `getParam("command")`, empty when absent. -/
  command : String
  /-- Value of `getParam("file")`, empty when absent. -/
  file : String
  /-- Option `--local`. -/
  localPath : Option String
  /-- Option `--type`. -/
  mimeType : Option String
  /-- Option `--replace`, as `hasParam("replace")`. -/
  replace : Bool
  /-- Option `--chunk-size`. -/
  chunkSize : Option Int

/-- Exit code, log and final state of the store of one invocation. -/
structure Outcome where
  code : Int
  log : Log
  final : DB

/-! GridFS -/

/-- The `GridFS` object `g` of `run`. -/
structure GridFS where
  filesNS : String
  chunksNS : String
  chunkSize : Nat

/-- Modelled from the spec: construction of a `GridFS` on a logical namespace; its two
collections are `<namespace>.files` and `<namespace>.chunks`. -/
def GridFS.new (dbName coll : String) (defaultChunkSize : Nat) : GridFS :=
  { filesNS := dbName ++ "." ++ coll ++ ".files"
    chunksNS := dbName ++ "." ++ coll ++ ".chunks"
    chunkSize := defaultChunkSize }

/-- Modelled from the spec: `GridFS::setChunkSize` overrides the default chunk size. -/
def GridFS.setChunkSize (g : GridFS) (size : Int) : GridFS :=
  { g with chunkSize := size.toNat }

/-- Modelled from the spec: `GridFS::list` runs a metadata-only query against the files
collection. -/
def GridFS.list (g : GridFS) (db : DB) (q : Query) : List BSONObj :=
  db.query g.filesNS q

/-- Modelled from the spec: a Chunk record, with the owning object identity, the sequence
number and the payload. -/
def chunkDoc (id : Nat) (n : Nat) (payload : List Nat) : BSONObj :=
  [("files_id", Elem.oid id), ("n", Elem.num n), ("data", Elem.bin payload)]

/-- Modelled from the spec: the payload cut in slices of `size` bytes, the last one possibly
shorter, as Chunk records numbered from 0. -/
def chunkDocs (id : Nat) (size : Nat) (data : List Nat) : List BSONObj :=
  (List.range ((data.length + size - 1) / size)).map
    (fun n => chunkDoc id n ((data.drop (n * size)).take size))

/-- Modelled from the spec: the ObjectMetadata record of a stored object. -/
def fileDoc (env : Env) (id : Nat) (filename contentType : String) (size : Nat)
    (data : List Nat) : BSONObj :=
  [("_id", Elem.oid id), ("filename", Elem.str filename), ("chunkSize", Elem.num size),
   ("uploadDate", Elem.num env.now), ("md5", Elem.str (env.md5 data)),
   ("length", Elem.num data.length)] ++
    (if contentType = "" then [] else [("contentType", Elem.str contentType)])

/-- Modelled from the spec: the insertions of `storeFile`, one document after the other, each
logged. -/
def insertAll (ns : String) : List BSONObj → DB → Log × DB
  | [], db => ([], db)
  | d :: ds, db =>
    let r := insertAll ns ds (db.insert ns d)
    ((Event.insert ns d, db.insert ns d) :: r.1, r.2)

/-- Modelled from the spec: `GridFS::storeFile` reads the local source, writes each Chunk
record tagged with a fresh object identity and ascending sequence number, then writes one
ObjectMetadata record referencing that identity, which it returns. -/
def GridFS.storeFile (g : GridFS) (env : Env) (db : DB)
    (fileName remoteName contentType : String) : BSONObj × Log × DB :=
  let data := env.readLocal fileName
  let r := insertAll g.chunksNS (chunkDocs env.freshOID g.chunkSize data) db
  let file := fileDoc env env.freshOID remoteName contentType g.chunkSize data
  (file, r.1 ++ [(Event.insert g.filesNS file, r.2.insert g.filesNS file)],
    r.2.insert g.filesNS file)

/-- The `GridFile` returned by `findFile`: the metadata document, if one was found. -/
abbrev GridFile := Option BSONObj

/-- Renders `GridFile::exists()`. -/
def GridFile.fileExists (f : GridFile) : Bool :=
  f.isSome

/-- Renders `GridFile::getFilename()`. -/
def GridFile.getFilename (f : GridFile) : String :=
  match f with
  | some obj => (obj.get "filename").strValue
  | none => ""

/-- Modelled from the spec: `GridFS::findFile` returns the first metadata match for an exact
filename, or an absent result if none exists. -/
def GridFS.findFile (g : GridFS) (db : DB) (filename : String) : GridFile :=
  db.findOne g.filesNS [("filename", Cond.eq (Elem.str filename))]

/-- Modelled from the spec: the deletions of `removeFile`, the metadata and the chunks of every
object of the cursor. -/
def removeEach (g : GridFS) : List BSONObj → DB → Log × DB
  | [], db => ([], db)
  | file :: rest, db =>
    let db1 := db.remove g.filesNS [("_id", Cond.eq (file.get "_id"))]
    let db2 := db1.remove g.chunksNS [("files_id", Cond.eq (file.get "_id"))]
    let r := removeEach g rest db2
    ((Event.remove g.filesNS [("_id", Cond.eq (file.get "_id"))], db1) ::
      (Event.remove g.chunksNS [("files_id", Cond.eq (file.get "_id"))], db2) :: r.1, r.2)

/-- Modelled from the spec: `GridFS::removeFile` deletes all ObjectMetadata and associated
Chunk records with a matching filename (every match, not just one). -/
def GridFS.removeFile (g : GridFS) (db : DB) (fileName : String) : Log × DB :=
  let q : Query := [("filename", Cond.eq (Elem.str fileName))]
  let r := removeEach g (db.query g.filesNS q) db
  ((Event.query g.filesNS q, db) :: r.1, r.2)

/-! The tool `Files` -/

namespace Files

/-- The name given to the `Tool` constructor. -/
def name : String := "files"

/-- Rendering of `Files::printExtraHelp`: the usage text, written to `out`. -/
def printExtraHelp (out : OStream) : List Event :=
  [ Event.print out "Browse and modify a GridFS filesystem.\n\n",
    Event.print out ("usage: " ++ name ++ " [options] command [gridfs filename]\n"),
    Event.print out "command:\n",
    Event.print out "  one of (list|search|put|get)\n",
    Event.print out "  list - list all files.  'gridfs filename' is an optional prefix \n",
    Event.print out "         which listed filenames must begin with.\n",
    Event.print out "  search - search all files. 'gridfs filename' is a substring \n",
    Event.print out "           which listed filenames must contain.\n",
    Event.print out "  put - add a file with filename 'gridfs filename'\n",
    Event.print out "  get - get a file with filename 'gridfs filename'\n",
    Event.print out "  delete - delete all files with filename 'gridfs filename'\n" ]

/-- Modelled from the spec: `Tool::printHelp` is declared outside the tool's source file; it
prints the usage of the tool, that is the text of `printExtraHelp` and then the table of
options, to the stream it is given. -/
def printHelp (out : OStream) : List Event :=
  printExtraHelp out ++ [Event.printOptions out]

/-- The row that `display` prints for an object: the filename and the length. -/
def row (o : BSONObj) : Event :=
  Event.printRow (o.get "filename").strValue (o.get "length").number

/-- Rendering of `Files::display`: lists the files collection with the given query and prints
one row per object. -/
def display (grid : GridFS) (db : DB) (obj : Query) : Log :=
  stamp db (Event.list obj :: (grid.list db obj).map row)

/-- The namespace `_db + "." + _coll + ".files"` of the metadata collection. -/
def filesNS (env : Env) : String :=
  env.dbName ++ "." ++ env.coll ++ ".files"

/-- The namespace `_db + "." + _coll + ".chunks"` of the chunk collection. -/
def chunksNS (env : Env) : String :=
  env.dbName ++ "." ++ env.coll ++ ".chunks"

/-- The `GridFS` object that `run` constructs. -/
def grid (env : Env) : GridFS :=
  GridFS.new env.dbName env.coll env.defaultChunkSize

/-- The loop of `put` under `--replace` (lines 153 to 158): for every object of the cursor,
remove its metadata, remove its chunks, report it. -/
def replaceLoop (env : Env) : List BSONObj → DB → Log × DB
  | [], db => ([], db)
  | o :: rest, db =>
    let db1 := db.remove (env.dbName ++ "." ++ env.coll ++ ".files")
      [("_id", Cond.eq (o.get "_id"))]
    let db2 := db1.remove (env.dbName ++ "." ++ env.coll ++ ".chunks")
      [("files_id", Cond.eq (o.get "_id"))]
    let r := replaceLoop env rest db2
    ((Event.remove (env.dbName ++ "." ++ env.coll ++ ".files")
        [("_id", Cond.eq (o.get "_id"))], db1) ::
      (Event.remove (env.dbName ++ "." ++ env.coll ++ ".chunks")
        [("files_id", Cond.eq (o.get "_id"))], db2) ::
      (Event.printObj "removed file: " o, db2) :: r.1, r.2)

/-- The query of `put` under `--replace` (line 152): same filename, another `_id`. -/
def replaceQuery (filename : String) (file : BSONObj) : Query :=
  [("filename", Cond.eq (Elem.str filename)), ("_id", Cond.ne (file.get "_id"))]

/-- The part of `put` after the chunk-size check (lines 146 to 164): store the file, under
`--replace` remove the other objects of that name, return 0. The namespace of the query of
line 151 is read as `_db + "." + _coll + ".files"`, as in the two `remove` calls below it. -/
def putStore (env : Env) (p : Params) (db : DB) (g : GridFS) (pre : Log) : Outcome :=
  let filename := p.file
  let infile := p.localPath.getD filename
  let type := p.mimeType.getD ""
  let stored := g.storeFile env db infile filename type
  let file := stored.1
  let db1 := stored.2.2
  let looped : Log × DB :=
    if p.replace then
      let r := replaceLoop env
        (db1.query (env.dbName ++ "." ++ env.coll ++ ".files") (replaceQuery filename file)) db1
      ((Event.query (env.dbName ++ "." ++ env.coll ++ ".files")
          (replaceQuery filename file), db1) :: r.1, r.2)
    else ([], db1)
  { code := 0
    log := pre ++ [(Event.storeFile infile filename type, db)] ++ stored.2.1 ++
      [(Event.printObj "added file: " file, db1)] ++ looped.1 ++
      stamp looped.2 [Event.getLastError, Event.print OStream.cout "done!\n"]
    final := looped.2 }

/-- Rendering of `Files::run`. -/
def run (env : Env) (p : Params) (db : DB) : Outcome :=
  let cmd := p.command
  if cmd.length = 0 then
    { code := -1
      log := stamp db
        (Event.print OStream.cerr "ERROR: need command\n\n" :: printHelp OStream.cout)
      final := db }
  else
    let g := GridFS.new env.dbName env.coll env.defaultChunkSize
    let pre : Log := stamp db [Event.newGridFS env.dbName env.coll]
    let filename := p.file
    if cmd = "list" then
      let b : Query :=
        if filename.length ≠ 0 then [("filename", Cond.regex ("^" ++ QuoteMeta filename))]
        else []
      { code := 0, log := pre ++ display g db b, final := db }
    else if filename.length = 0 then
      { code := -1
        log := pre ++ stamp db
          (Event.print OStream.cerr "ERROR: need a filename\n\n" :: printHelp OStream.cout)
        final := db }
    else if cmd = "search" then
      let b : Query := [("filename", Cond.regex filename)]
      { code := 0, log := pre ++ display g db b, final := db }
    else if cmd = "get" then
      let f := g.findFile db filename
      if !f.fileExists then
        { code := -2
          log := pre ++ stamp db
            [Event.findFile filename, Event.print OStream.cerr "ERROR: file not found\n"]
          final := db }
      else
        let out := p.localPath.getD f.getFilename
        { code := 0
          log := pre ++ stamp db
            ([Event.findFile filename, Event.write (f.getD []) out] ++
              (if out ≠ "-" then [Event.print OStream.cout ("done write to: " ++ out ++ "\n")]
               else []))
          final := db }
    else if cmd = "put" then
      match p.chunkSize with
      | some chunk_size =>
        if chunk_size < 0 then
          { code := -3
            log := pre ++ stamp db
              [Event.print OStream.cerr "ERROR: Chunk size cannot be negative\n"]
            final := db }
        else if chunk_size > env.bsonObjMaxUserSize - 16 * 1024 then
          { code := -3
            log := pre ++ stamp db
              [Event.print OStream.cerr "ERROR: Chunk size beyond maximum document size\n"]
            final := db }
        else if chunk_size > 0 then
          putStore env p db (g.setChunkSize chunk_size)
            (pre ++ stamp db [Event.setChunkSize chunk_size])
        else putStore env p db g pre
      | none => putStore env p db g pre
    else if cmd = "delete" then
      let r := g.removeFile db filename
      { code := 0
        log := pre ++ [(Event.removeFile filename, db)] ++ r.1 ++
          stamp r.2 [Event.getLastError, Event.print OStream.cout "done!\n"]
        final := r.2 }
    else
      { code := -1
        log := pre ++ stamp db
          (Event.print OStream.cerr ("ERROR: unknown command '" ++ cmd ++ "'\n\n") ::
            printHelp OStream.cout)
        final := db }

/-! Names for parts of a run of `put`, used in the statements below -/

/-- What `storeFile` returns in `put`: the metadata document, the log and the store. -/
def stored (env : Env) (p : Params) (db : DB) (g : GridFS) : BSONObj × Log × DB :=
  g.storeFile env db (p.localPath.getD p.file) p.file (p.mimeType.getD "")

/-- The log of `putStore` after the insertion of the new metadata document. -/
def putTail (env : Env) (p : Params) (db : DB) (g : GridFS) (pre : Log) : Log :=
  (Event.printObj "added file: " (stored env p db g).1, (stored env p db g).2.2) ::
    ((if p.replace then
        (Event.query (filesNS env) (replaceQuery p.file (stored env p db g).1),
          (stored env p db g).2.2) ::
        (replaceLoop env
          ((stored env p db g).2.2.query (filesNS env)
            (replaceQuery p.file (stored env p db g).1))
          (stored env p db g).2.2).1
      else []) ++
      stamp (putStore env p db g pre).final
        [Event.getLastError, Event.print OStream.cout "done!\n"])

end Files

/-! `UpdateRequest` (`mongo/db/ops/update_request.h`) -/

/-- The members of an `UpdateRequest`. The header only names the types `NamespaceString`,
`OpDebug` and `QueryPlanSelectionPolicy`; they are parameters here. -/
structure UpdateRequest (NamespaceString OpDebug QueryPlanSelectionPolicy : Type) where
  _nsString : NamespaceString
  _debug : OpDebug
  _queryPlanPolicy : QueryPlanSelectionPolicy
  _query : BSONObj
  _updates : BSONObj
  _god : Bool
  _upsert : Bool
  _multi : Bool
  _updateOpLog : Bool
  _fromMigration : Bool
  _fromReplication : Bool

/-- The request objects in memory, by address. -/
abbrev Heap (N D P : Type) := Nat → UpdateRequest N D P

/-- Assignment to the object at address `this`. -/
def Heap.store {N D P : Type} (h : Heap N D P) (this : Nat) (r : UpdateRequest N D P) :
    Heap N D P :=
  fun a => if a = this then r else h a

namespace UpdateRequest

variable {N D P : Type}

/-- The constructor: the three references are taken from the arguments, the two documents are
empty and the six flags are false. -/
def new (nsString : N) (debug : D) (policy : P) : UpdateRequest N D P :=
  { _nsString := nsString, _debug := debug, _queryPlanPolicy := policy, _query := [],
    _updates := [], _god := false, _upsert := false, _multi := false, _updateOpLog := false,
    _fromMigration := false, _fromReplication := false }

/-- Getter `getNamespaceString`. -/
def getNamespaceString (h : Heap N D P) (this : Nat) : N := (h this)._nsString

/-- Getter `getDebug`. -/
def getDebug (h : Heap N D P) (this : Nat) : D := (h this)._debug

/-- Getter `getQueryPlanSelectionPolicy`. -/
def getQueryPlanSelectionPolicy (h : Heap N D P) (this : Nat) : P := (h this)._queryPlanPolicy

/-- Setter `query`: assigns the member and returns `*this`. -/
def query (h : Heap N D P) (this : Nat) (value : BSONObj) : Heap N D P × Nat :=
  (h.store this { h this with _query := value }, this)

/-- Getter `getQuery`. -/
def getQuery (h : Heap N D P) (this : Nat) : BSONObj := (h this)._query

/-- Setter `updates`: assigns the member and returns `*this`. -/
def updates (h : Heap N D P) (this : Nat) (value : BSONObj) : Heap N D P × Nat :=
  (h.store this { h this with _updates := value }, this)

/-- Getter `getUpdates`. -/
def getUpdates (h : Heap N D P) (this : Nat) : BSONObj := (h this)._updates

/-- Setter `god`: assigns the member and returns `*this`. -/
def god (h : Heap N D P) (this : Nat) (value : Bool) : Heap N D P × Nat :=
  (h.store this { h this with _god := value }, this)

/-- Getter `isGod`. -/
def isGod (h : Heap N D P) (this : Nat) : Bool := (h this)._god

/-- Setter `upsert`: assigns the member and returns `*this`. -/
def upsert (h : Heap N D P) (this : Nat) (value : Bool) : Heap N D P × Nat :=
  (h.store this { h this with _upsert := value }, this)

/-- Getter `isUpsert`. -/
def isUpsert (h : Heap N D P) (this : Nat) : Bool := (h this)._upsert

/-- Setter `multi`: assigns the member and returns `*this`. -/
def multi (h : Heap N D P) (this : Nat) (value : Bool) : Heap N D P × Nat :=
  (h.store this { h this with _multi := value }, this)

/-- Getter `isMulti`. -/
def isMulti (h : Heap N D P) (this : Nat) : Bool := (h this)._multi

/-- Setter `updateOpLog`: assigns the member and returns `*this`. -/
def updateOpLog (h : Heap N D P) (this : Nat) (value : Bool) : Heap N D P × Nat :=
  (h.store this { h this with _updateOpLog := value }, this)

/-- Getter `shouldUpdateOpLog`. -/
def shouldUpdateOpLog (h : Heap N D P) (this : Nat) : Bool := (h this)._updateOpLog

/-- Setter `fromMigration`: assigns the member and returns `*this`. -/
def fromMigration (h : Heap N D P) (this : Nat) (value : Bool) : Heap N D P × Nat :=
  (h.store this { h this with _fromMigration := value }, this)

/-- Getter `isFromMigration`. -/
def isFromMigration (h : Heap N D P) (this : Nat) : Bool := (h this)._fromMigration

/-- Setter `fromReplication`: assigns the member and returns `*this`. -/
def fromReplication (h : Heap N D P) (this : Nat) (value : Bool) : Heap N D P × Nat :=
  (h.store this { h this with _fromReplication := value }, this)

/-- Getter `isFromReplication`. -/
def isFromReplication (h : Heap N D P) (this : Nat) : Bool := (h this)._fromReplication

end UpdateRequest

/-! Sample data -/

/-- A sample environment. -/
def sampleEnv : Env :=
  { dbName := "test", coll := "fs", bsonObjMaxUserSize := 16 * 1024 * 1024,
    defaultChunkSize := 4, freshOID := 7, now := 0,
    readLocal := fun path => if path = "x" then [1, 2, 3, 4, 5, 6] else [],
    md5 := fun _ => "" }

/-- A sample store: two objects named `x`, one named `y`, with their chunks. -/
def sampleDB : DB :=
  fun ns =>
    if ns = "test.fs.files" then
      [ [("_id", Elem.oid 1), ("filename", Elem.str "x"), ("length", Elem.num 2)],
        [("_id", Elem.oid 2), ("filename", Elem.str "y"), ("length", Elem.num 1)],
        [("_id", Elem.oid 3), ("filename", Elem.str "x"), ("length", Elem.num 0)] ]
    else if ns = "test.fs.chunks" then
      [ chunkDoc 1 0 [9, 9], chunkDoc 2 0 [8] ]
    else []

/-- Sample `put x --replace`. -/
def samplePut : Params :=
  { command := "put", file := "x", localPath := none, mimeType := none, replace := true,
    chunkSize := none }

/-- Sample invocation without a command. -/
def sampleNoCommand : Params :=
  { command := "", file := "", localPath := none, mimeType := none, replace := false,
    chunkSize := none }

/-- Sample `put x --replace --chunk-size -1`. -/
def sampleBadChunk : Params :=
  { command := "put", file := "x", localPath := none, mimeType := none, replace := true,
    chunkSize := some (-1) }

/-- Sample `get nope`. -/
def sampleGet : Params :=
  { command := "get", file := "nope", localPath := none, mimeType := none, replace := false,
    chunkSize := none }

/-- Sample `delete` without a name. -/
def sampleDelete : Params :=
  { command := "delete", file := "", localPath := none, mimeType := none, replace := false,
    chunkSize := none }

/-- Sample `list a.b*c`. -/
def sampleList : Params :=
  { command := "list", file := "a.b*c", localPath := none, mimeType := none, replace := false,
    chunkSize := none }

/-- Sample `search a.b*c`. -/
def sampleSearch : Params :=
  { command := "search", file := "a.b*c", localPath := none, mimeType := none,
    replace := false, chunkSize := none }

/-- A sample store with one object named `a.b*c` and one named `aXbbc`. -/
def sampleNames : DB :=
  fun ns =>
    if ns = "test.fs.files" then
      [ [("_id", Elem.oid 1), ("filename", Elem.str "a.b*c"), ("length", Elem.num 3)],
        [("_id", Elem.oid 2), ("filename", Elem.str "aXbbc"), ("length", Elem.num 4)] ]
    else []

/-! Lemmas on strings and patterns -/

theorem string_length_eq_zero (s : String) : s.length = 0 ↔ s = "" := by
  cases s with
  | mk l =>
    simp only [String.length]
    constructor
    · intro h
      rw [List.length_eq_zero] at h
      rw [h]
    · intro h
      have := congrArg String.data h
      simp at this
      simp [this]

namespace Pcre

theorem lex_escaped (c : Char) (rest : List Char) (h : isAsciiAlnum c = false) :
    lex ('\\' :: c :: rest) = (lex rest).map (fun ts => Tok.atom (Atom.chr c) :: ts) := by
  simp [lex, h]

theorem lex_plain (c : Char) (rest : List Char)
    (h : (!isAsciiAlnum c && c != '_' && decide (c.toNat < 128)) = false) :
    lex (c :: rest) = (lex rest).map (fun ts => Tok.atom (Atom.chr c) :: ts) := by
  have h1 : c ≠ '\\' := by rintro rfl; revert h; decide
  have h2 : c ≠ '.' := by rintro rfl; revert h; decide
  have h3 : c ≠ '*' := by rintro rfl; revert h; decide
  have h4 : c ≠ '+' := by rintro rfl; revert h; decide
  have h5 : c ≠ '?' := by rintro rfl; revert h; decide
  have h6 : c ≠ '^' := by rintro rfl; revert h; decide
  have h7 : c ≠ '$' := by rintro rfl; revert h; decide
  have h8 : c ≠ '(' := by rintro rfl; revert h; decide
  have h9 : c ≠ ')' := by rintro rfl; revert h; decide
  have h10 : c ≠ '[' := by rintro rfl; revert h; decide
  have h11 : c ≠ ']' := by rintro rfl; revert h; decide
  have h12 : c ≠ '{' := by rintro rfl; revert h; decide
  have h13 : c ≠ '}' := by rintro rfl; revert h; decide
  have h14 : c ≠ '|' := by rintro rfl; revert h; decide
  rw [lex.eq_def]
  simp [classify, h1, h2, h3, h4, h5, h6, h7, h8, h9, h10, h11, h12, h13, h14]

theorem lex_quoted (p : List Char) (h : '\x00' ∉ p) :
    lex (p.flatMap quoteChar) = some (p.map (fun c => Tok.atom (Atom.chr c))) := by
  induction p with
  | nil => simp [lex]
  | cons c p ih =>
    have hc : c ≠ '\x00' := fun e => h (by simp [e])
    have hp : '\x00' ∉ p := fun e => h (by simp [e])
    rw [List.flatMap_cons]
    conv_lhs => arg 1; arg 1; unfold quoteChar
    rw [if_neg hc]
    by_cases hq : (!isAsciiAlnum c && c != '_' && decide (c.toNat < 128)) = true
    · rw [if_pos hq]
      have ha : isAsciiAlnum c = false := by
        cases hx : isAsciiAlnum c
        · rfl
        · rw [hx] at hq; simp at hq
      rw [show ['\\', c] ++ p.flatMap quoteChar = '\\' :: c :: p.flatMap quoteChar from rfl,
        lex_escaped c _ ha, ih hp]
      rfl
    · rw [if_neg hq]
      have hq2 : (!isAsciiAlnum c && c != '_' && decide (c.toNat < 128)) = false := by
        simpa using hq
      rw [show [c] ++ p.flatMap quoteChar = c :: p.flatMap quoteChar from rfl,
        lex_plain c _ hq2, ih hp]
      rfl

theorem items_literals (p : List Char) :
    items (p.map (fun c => Tok.atom (Atom.chr c))) =
      some (p.map (fun c => Item.mk (Atom.chr c) Quant.one), false) := by
  induction p with
  | nil => simp [items]
  | cons c p ih =>
    cases p with
    | nil => simp [items]
    | cons d p =>
      simp only [List.map_cons] at ih ⊢
      rw [items]
      · rw [ih]; rfl
      · intro q rest hq
        cases hq

theorem matchItems_literals (p s : List Char) :
    matchItems false (p.map (fun c => Item.mk (Atom.chr c) Quant.one)) s = p.isPrefixOf s := by
  induction p generalizing s with
  | nil => simp [matchItems]
  | cons c p ih =>
    cases s with
    | nil => simp [matchItems, List.isPrefixOf]
    | cons d s =>
      simp only [List.map_cons, matchItems, Atom.accepts, ih, List.isPrefixOf]
      rw [Bool.beq_comm]

theorem search_quoted (p s : String) (h : '\x00' ∉ p.data) :
    search ("^" ++ QuoteMeta p) s = some (decide (p.data <+: s.data)) := by
  have hd : ("^" ++ QuoteMeta p).data = '^' :: p.data.flatMap quoteChar := by
    simp [QuoteMeta]
  have hl : lex ('^' :: p.data.flatMap quoteChar) =
      some (Tok.bol :: p.data.map (fun c => Tok.atom (Atom.chr c))) := by
    have e : lex ('^' :: p.data.flatMap quoteChar) =
        (lex (p.data.flatMap quoteChar)).map (fun ts => Tok.bol :: ts) := by
      rw [lex.eq_def]
      simp [classify]
    rw [e, lex_quoted _ h]
    rfl
  unfold search compile
  rw [hd, hl]
  dsimp only
  rw [items_literals]
  simp only [Option.map_some', if_true, matchItems_literals]
  congr 1
  rw [Bool.eq_iff_iff]
  simp [List.isPrefixOf_iff_prefix]

end Pcre

/-! Lemmas on lists of actions -/

/-- In a list that is `P ++ x :: R`, an element `y` that is neither in `P` nor `x` comes after
`x`. -/
theorem mem_before {α : Type} (P : List α) (x : α) (R A B : List α) (y : α)
    (h : P ++ x :: R = A ++ y :: B) (hy : y ∉ P) (hxy : x ≠ y) : x ∈ A := by
  induction P generalizing A with
  | nil =>
    cases A with
    | nil =>
      simp only [List.nil_append, List.cons.injEq] at h
      exact absurd h.1 hxy
    | cons a A =>
      simp only [List.nil_append, List.cons_append, List.cons.injEq] at h
      simp [h.1]
  | cons q P ih =>
    cases A with
    | nil =>
      simp only [List.cons_append, List.nil_append, List.cons.injEq] at h
      exact absurd (by simp [h.1]) hy
    | cons a A =>
      simp only [List.cons_append, List.cons.injEq] at h
      have := ih A h.2 (fun hm => hy (by simp [hm]))
      simp [this]

/-- In a list that is `L1 ++ y :: L2` where no element of `L1` is a trigger and every element
from `y` on satisfies `Q`: an element at or after the first trigger satisfies `Q`. -/
theorem holds_from_trigger {α : Type} (T Q : α → Prop) (L1 : List α) (y : α)
    (L2 A B : List α) (x : α) (h : L1 ++ y :: L2 = A ++ x :: B) (hL1 : ∀ z ∈ L1, ¬ T z)
    (hT : ∃ z ∈ A ++ [x], T z) (hQ : ∀ z ∈ y :: L2, Q z) : Q x := by
  induction L1 generalizing A with
  | nil =>
    apply hQ
    rw [List.nil_append] at h
    rw [h]
    simp
  | cons l L1 ih =>
    cases A with
    | nil =>
      simp only [List.cons_append, List.nil_append, List.cons.injEq] at h
      obtain ⟨z, hz, hTz⟩ := hT
      simp only [List.nil_append, List.mem_singleton] at hz
      subst hz
      exact absurd hTz (hL1 z (by simp [h.1]))
    | cons a A =>
      simp only [List.cons_append, List.cons.injEq] at h
      apply ih A h.2 (fun z hz => hL1 z (by simp [hz]))
      obtain ⟨z, hz, hTz⟩ := hT
      simp only [List.cons_append, List.mem_cons] at hz
      rcases hz with rfl | hz
      · exact absurd hTz (hL1 z (by simp [h.1]))
      · exact ⟨z, hz, hTz⟩

/-! Lemmas on the store -/

theorem append_files_ne_chunks (a : String) : a ++ ".files" ≠ a ++ ".chunks" := by
  intro h
  have h2 := congrArg String.data h
  simp only [String.data_append, List.append_cancel_left_eq] at h2
  revert h2
  decide

theorem filesNS_ne_chunksNS (env : Env) : Files.filesNS env ≠ Files.chunksNS env :=
  append_files_ne_chunks _

theorem DB.setColl_same (db : DB) (ns : String) (docs : List BSONObj) :
    (db.setColl ns docs) ns = docs := by
  simp [DB.setColl]

theorem DB.setColl_other (db : DB) (ns n : String) (docs : List BSONObj) (h : n ≠ ns) :
    (db.setColl ns docs) n = db n := by
  simp [DB.setColl, h]

theorem matches_id (name : String) (v : Elem) (d : BSONObj) :
    Query.matches [(name, Cond.eq v)] d = (d.get name == v) := by
  simp [Query.matches, Cond.holds]

namespace Files

theorem run_no_command (env : Env) (p : Params) (db : DB) (h : p.command = "") :
    run env p db =
      { code := -1
        log := stamp db
          (Event.print OStream.cerr "ERROR: need command\n\n" :: printHelp OStream.cout)
        final := db } := by
  simp [run, h, string_length_eq_zero]

theorem run_list (env : Env) (p : Params) (db : DB) (h : p.command = "list") :
    run env p db =
      { code := 0
        log := stamp db [Event.newGridFS env.dbName env.coll] ++
          display (grid env) db
            (if p.file.length ≠ 0 then [("filename", Cond.regex ("^" ++ QuoteMeta p.file))]
             else [])
        final := db } := by
  simp [run, h, grid, string_length_eq_zero]

theorem run_no_file (env : Env) (p : Params) (db : DB) (hc : p.command ≠ "")
    (hl : p.command ≠ "list") (h : p.file = "") :
    run env p db =
      { code := -1
        log := stamp db [Event.newGridFS env.dbName env.coll] ++ stamp db
          (Event.print OStream.cerr "ERROR: need a filename\n\n" :: printHelp OStream.cout)
        final := db } := by
  simp [run, h, hc, hl, string_length_eq_zero]

theorem run_search (env : Env) (p : Params) (db : DB) (h : p.command = "search")
    (hf : p.file ≠ "") :
    run env p db =
      { code := 0
        log := stamp db [Event.newGridFS env.dbName env.coll] ++
          display (grid env) db [("filename", Cond.regex p.file)]
        final := db } := by
  simp [run, h, hf, grid, string_length_eq_zero]

theorem run_get_missing (env : Env) (p : Params) (db : DB) (h : p.command = "get")
    (hf : p.file ≠ "") (hx : ((grid env).findFile db p.file).fileExists = false) :
    run env p db =
      { code := -2
        log := stamp db [Event.newGridFS env.dbName env.coll] ++ stamp db
          [Event.findFile p.file, Event.print OStream.cerr "ERROR: file not found\n"]
        final := db } := by
  simp only [grid] at hx
  simp [run, h, hf, hx, string_length_eq_zero]

theorem run_get_found (env : Env) (p : Params) (db : DB) (h : p.command = "get")
    (hf : p.file ≠ "") (hx : ((grid env).findFile db p.file).fileExists = true) :
    run env p db =
      { code := 0
        log := stamp db [Event.newGridFS env.dbName env.coll] ++ stamp db
          ([Event.findFile p.file,
            Event.write (((grid env).findFile db p.file).getD [])
              (p.localPath.getD ((grid env).findFile db p.file).getFilename)] ++
            (if p.localPath.getD ((grid env).findFile db p.file).getFilename ≠ "-" then
              [Event.print OStream.cout ("done write to: " ++
                p.localPath.getD ((grid env).findFile db p.file).getFilename ++ "\n")]
             else []))
        final := db } := by
  simp only [grid] at hx
  simp [run, h, hf, hx, grid, string_length_eq_zero]

theorem run_put (env : Env) (p : Params) (db : DB) (h : p.command = "put")
    (hf : p.file ≠ "") :
    run env p db =
      match p.chunkSize with
      | some chunk_size =>
        if chunk_size < 0 then
          { code := -3
            log := stamp db [Event.newGridFS env.dbName env.coll] ++ stamp db
              [Event.print OStream.cerr "ERROR: Chunk size cannot be negative\n"]
            final := db }
        else if chunk_size > env.bsonObjMaxUserSize - 16 * 1024 then
          { code := -3
            log := stamp db [Event.newGridFS env.dbName env.coll] ++ stamp db
              [Event.print OStream.cerr "ERROR: Chunk size beyond maximum document size\n"]
            final := db }
        else if chunk_size > 0 then
          putStore env p db ((grid env).setChunkSize chunk_size)
            (stamp db [Event.newGridFS env.dbName env.coll] ++
              stamp db [Event.setChunkSize chunk_size])
        else putStore env p db (grid env) (stamp db [Event.newGridFS env.dbName env.coll])
      | none => putStore env p db (grid env) (stamp db [Event.newGridFS env.dbName env.coll]) := by
  simp [run, h, hf, grid, string_length_eq_zero]

theorem run_delete (env : Env) (p : Params) (db : DB) (h : p.command = "delete")
    (hf : p.file ≠ "") :
    run env p db =
      { code := 0
        log := stamp db [Event.newGridFS env.dbName env.coll] ++
          [(Event.removeFile p.file, db)] ++ ((grid env).removeFile db p.file).1 ++
          stamp ((grid env).removeFile db p.file).2
            [Event.getLastError, Event.print OStream.cout "done!\n"]
        final := ((grid env).removeFile db p.file).2 } := by
  simp [run, h, hf, grid, string_length_eq_zero]

theorem run_unknown (env : Env) (p : Params) (db : DB) (h0 : p.command ≠ "")
    (h1 : p.command ≠ "list") (h2 : p.command ≠ "search") (h3 : p.command ≠ "get")
    (h4 : p.command ≠ "put") (h5 : p.command ≠ "delete") (hf : p.file ≠ "") :
    run env p db =
      { code := -1
        log := stamp db [Event.newGridFS env.dbName env.coll] ++ stamp db
          (Event.print OStream.cerr ("ERROR: unknown command '" ++ p.command ++ "'\n\n") ::
            printHelp OStream.cout)
        final := db } := by
  simp [run, h0, h1, h2, h3, h4, h5, hf, string_length_eq_zero]

/-! Insertions and removals -/

theorem insertAll_same (ns : String) (docs : List BSONObj) (db : DB) :
    (insertAll ns docs db).2 ns = db ns ++ docs := by
  induction docs generalizing db with
  | nil => simp [insertAll]
  | cons d ds ih =>
    simp only [insertAll]
    rw [ih]
    simp [DB.insert, DB.setColl]

theorem insertAll_other (ns n : String) (docs : List BSONObj) (db : DB) (h : n ≠ ns) :
    (insertAll ns docs db).2 n = db n := by
  induction docs generalizing db with
  | nil => simp [insertAll]
  | cons d ds ih =>
    simp only [insertAll]
    rw [ih]
    simp [DB.insert, DB.setColl, h]

theorem insertAll_log_other (ns n : String) (docs : List BSONObj) (db : DB) (h : n ≠ ns) :
    ∀ x ∈ (insertAll ns docs db).1, x.2 n = db n := by
  induction docs generalizing db with
  | nil => simp [insertAll]
  | cons d ds ih =>
    intro x hx
    simp only [insertAll, List.mem_cons] at hx
    rcases hx with rfl | hx
    · simp [DB.insert, DB.setColl, h]
    · rw [ih _ x hx]
      simp [DB.insert, DB.setColl, h]

theorem insertAll_log_events (ns : String) (docs : List BSONObj) (db : DB) :
    ∀ x ∈ (insertAll ns docs db).1, ∃ d, x.1 = Event.insert ns d := by
  induction docs generalizing db with
  | nil => simp [insertAll]
  | cons d ds ih =>
    intro x hx
    simp only [insertAll, List.mem_cons] at hx
    rcases hx with rfl | hx
    · exact ⟨d, rfl⟩
    · exact ih _ x hx

theorem replaceLoop_files (env : Env) (cur : List BSONObj) (db : DB) :
    (replaceLoop env cur db).2 (filesNS env) =
      (db (filesNS env)).filter
        (fun d => decide (d.get "_id" ∉ cur.map (fun o => o.get "_id"))) := by
  induction cur generalizing db with
  | nil => simp [replaceLoop]
  | cons o rest ih =>
    simp only [replaceLoop]
    rw [ih]
    have hne := filesNS_ne_chunksNS env
    simp only [filesNS, chunksNS] at hne ⊢
    simp only [DB.remove, DB.setColl, if_neg hne, if_neg (Ne.symm hne), if_true,
      List.filter_filter, matches_id]
    congr 1
    funext d
    rw [Bool.eq_iff_iff]
    simp [not_or, and_comm]

theorem replaceLoop_chunks (env : Env) (cur : List BSONObj) (db : DB) :
    (replaceLoop env cur db).2 (chunksNS env) =
      (db (chunksNS env)).filter
        (fun c => decide (c.get "files_id" ∉ cur.map (fun o => o.get "_id"))) := by
  induction cur generalizing db with
  | nil => simp [replaceLoop]
  | cons o rest ih =>
    simp only [replaceLoop]
    rw [ih]
    have hne := filesNS_ne_chunksNS env
    simp only [filesNS, chunksNS] at hne ⊢
    simp only [DB.remove, DB.setColl, if_neg hne, if_neg (Ne.symm hne), if_true,
      List.filter_filter, matches_id]
    congr 1
    funext d
    rw [Bool.eq_iff_iff]
    simp [not_or, and_comm]

theorem replaceLoop_other (env : Env) (cur : List BSONObj) (db : DB) (n : String)
    (h1 : n ≠ filesNS env) (h2 : n ≠ chunksNS env) :
    (replaceLoop env cur db).2 n = db n := by
  induction cur generalizing db with
  | nil => simp [replaceLoop]
  | cons o rest ih =>
    simp only [replaceLoop]
    rw [ih]
    simp only [filesNS, chunksNS] at h1 h2
    simp [DB.remove, DB.setColl, h1, h2]

theorem replaceLoop_log_keeps (env : Env) (cur : List BSONObj) (db : DB) :
    ∀ x ∈ (replaceLoop env cur db).1, ∀ d ∈ db (filesNS env),
      d.get "_id" ∉ cur.map (fun o => o.get "_id") → d ∈ x.2 (filesNS env) := by
  induction cur generalizing db with
  | nil => simp [replaceLoop]
  | cons o rest ih =>
    intro x hx d hd hid
    have hne := filesNS_ne_chunksNS env
    simp only [List.map_cons, List.mem_cons, not_or] at hid
    have hd1 : d ∈ (db.remove (filesNS env) [("_id", Cond.eq (o.get "_id"))]) (filesNS env) := by
      simp [DB.remove, DB.setColl, matches_id, hd, hid.1]
    have hd2 : d ∈ ((db.remove (filesNS env) [("_id", Cond.eq (o.get "_id"))]).remove
        (chunksNS env) [("files_id", Cond.eq (o.get "_id"))]) (filesNS env) := by
      rw [DB.remove, DB.setColl_other _ _ _ _ hne]
      exact hd1
    simp only [replaceLoop, List.mem_cons] at hx
    rcases hx with rfl | rfl | rfl | hx
    · exact hd1
    · exact hd2
    · exact hd2
    · exact ih _ x hx d hd2 hid.2

theorem replaceLoop_log_events (env : Env) (cur : List BSONObj) (db : DB) :
    ∀ x ∈ (replaceLoop env cur db).1, ∃ o ∈ cur,
      x.1 = Event.remove (filesNS env) [("_id", Cond.eq (o.get "_id"))] ∨
      x.1 = Event.remove (chunksNS env) [("files_id", Cond.eq (o.get "_id"))] ∨
      x.1 = Event.printObj "removed file: " o := by
  induction cur generalizing db with
  | nil => simp [replaceLoop]
  | cons o rest ih =>
    intro x hx
    simp only [replaceLoop, List.mem_cons] at hx
    rcases hx with rfl | rfl | rfl | hx
    · exact ⟨o, by simp, Or.inl rfl⟩
    · exact ⟨o, by simp, Or.inr (Or.inl rfl)⟩
    · exact ⟨o, by simp, Or.inr (Or.inr rfl)⟩
    · obtain ⟨o2, ho2, h⟩ := ih _ x hx
      exact ⟨o2, by simp [ho2], h⟩

/-! `storeFile` and the tail of `put` -/

theorem stored_fst (env : Env) (p : Params) (db : DB) (g : GridFS) :
    (stored env p db g).1 = fileDoc env env.freshOID p.file (p.mimeType.getD "") g.chunkSize
      (env.readLocal (p.localPath.getD p.file)) := rfl


theorem fileDoc_id (env : Env) (id : Nat) (filename contentType : String) (size : Nat)
    (data : List Nat) :
    (fileDoc env id filename contentType size data).get "_id" = Elem.oid id := by
  simp [fileDoc, BSONObj.get]

theorem fileDoc_filename (env : Env) (id : Nat) (filename contentType : String) (size : Nat)
    (data : List Nat) :
    (fileDoc env id filename contentType size data).get "filename" = Elem.str filename := by
  simp [fileDoc, BSONObj.get]

theorem chunkDocs_files_id (id size : Nat) (data : List Nat) :
    ∀ c ∈ chunkDocs id size data, c.get "files_id" = Elem.oid id := by
  intro c hc
  simp only [chunkDocs, List.mem_map] at hc
  obtain ⟨n, _, rfl⟩ := hc
  simp [chunkDoc, BSONObj.get]

theorem matches_replaceQuery (filename : String) (file d : BSONObj) :
    Query.matches (replaceQuery filename file) d =
      (d.get "filename" == Elem.str filename && d.get "_id" != file.get "_id") := by
  simp [replaceQuery, Query.matches, Cond.holds]

theorem storeFile_files (g : GridFS) (env : Env) (db : DB) (i f t : String)
    (hg : g.filesNS ≠ g.chunksNS) :
    (g.storeFile env db i f t).2.2 g.filesNS = db g.filesNS ++ [(g.storeFile env db i f t).1] := by
  simp [GridFS.storeFile, DB.insert, DB.setColl, insertAll_other _ _ _ _ hg]

theorem storeFile_chunks (g : GridFS) (env : Env) (db : DB) (i f t : String)
    (hg : g.filesNS ≠ g.chunksNS) :
    (g.storeFile env db i f t).2.2 g.chunksNS =
      db g.chunksNS ++ chunkDocs env.freshOID g.chunkSize (env.readLocal i) := by
  simp [GridFS.storeFile, DB.insert, DB.setColl, insertAll_same, Ne.symm hg]

theorem storeFile_other (g : GridFS) (env : Env) (db : DB) (i f t n : String)
    (h1 : n ≠ g.filesNS) (h2 : n ≠ g.chunksNS) :
    (g.storeFile env db i f t).2.2 n = db n := by
  simp [GridFS.storeFile, DB.insert, DB.setColl, insertAll_other _ _ _ _ h2, h1]

theorem storeFile_log (g : GridFS) (env : Env) (db : DB) (i f t : String)
    (hg : g.filesNS ≠ g.chunksNS) :
    ∀ x ∈ (g.storeFile env db i f t).2.1,
      (∃ ns d, x.1 = Event.insert ns d) ∧
      (x.2 g.filesNS = db g.filesNS ∨
        (x.1 = Event.insert g.filesNS (g.storeFile env db i f t).1 ∧
          x.2 g.filesNS = db g.filesNS ++ [(g.storeFile env db i f t).1])) := by
  intro x hx
  simp only [GridFS.storeFile, List.mem_append, List.mem_singleton] at hx
  rcases hx with hx | rfl
  · refine ⟨?_, Or.inl (insertAll_log_other _ _ _ _ hg x hx)⟩
    obtain ⟨d, hd⟩ := insertAll_log_events _ _ _ x hx
    exact ⟨_, d, hd⟩
  · refine ⟨⟨_, _, rfl⟩, Or.inr ⟨rfl, ?_⟩⟩
    simp [GridFS.storeFile, DB.insert, DB.setColl, insertAll_other _ _ _ _ hg]

theorem putStore_code (env : Env) (p : Params) (db : DB) (g : GridFS) (pre : Log) :
    (putStore env p db g pre).code = 0 := rfl

theorem putStore_final_plain (env : Env) (p : Params) (db : DB) (g : GridFS) (pre : Log)
    (hrep : p.replace = false) :
    (putStore env p db g pre).final =
      (stored env p db g).2.2 := by
  simp [putStore, stored, hrep]

theorem putStore_final_replace (env : Env) (p : Params) (db : DB) (g : GridFS) (pre : Log)
    (hrep : p.replace = true) :
    (putStore env p db g pre).final =
      (replaceLoop env
        (((stored env p db g).2.2.query
          (filesNS env)
          (replaceQuery p.file
            (stored env p db g).1)))
        (stored env p db g).2.2).2 := by
  simp [putStore, stored, hrep, filesNS]

theorem putStore_log (env : Env) (p : Params) (db : DB) (g : GridFS) (pre : Log) :
    (putStore env p db g pre).log =
      pre ++ (Event.storeFile (p.localPath.getD p.file) p.file (p.mimeType.getD ""), db) ::
        ((stored env p db g).2.1 ++
          (Event.printObj "added file: "
              (stored env p db g).1,
            (stored env p db g).2.2) ::
          ((if p.replace then
              (Event.query (filesNS env)
                (replaceQuery p.file
                  (stored env p db g).1),
                (stored env p db g).2.2) ::
              (replaceLoop env
                (((stored env p db g).2.2.query (filesNS env)
                  (replaceQuery p.file
                    (stored env p db g).1)))
                (stored env p db g).2.2).1
            else []) ++
            stamp (putStore env p db g pre).final
              [Event.getLastError, Event.print OStream.cout "done!\n"])) := by
  cases hrep : p.replace <;> simp [putStore, stored, hrep, filesNS]

/-- The two ways `put` with a file name can go: the chunk size is rejected, or the file is
stored by `putStore` on a `GridFS` over the two collections of the tool. -/
theorem run_put_cases (env : Env) (p : Params) (db : DB) (h : p.command = "put")
    (hf : p.file ≠ "") :
    (∃ v msg, p.chunkSize = some v ∧ (v < 0 ∨ v > env.bsonObjMaxUserSize - 16 * 1024) ∧
      run env p db =
        { code := -3
          log := stamp db [Event.newGridFS env.dbName env.coll, Event.print OStream.cerr msg]
          final := db }) ∨
    (∃ g pre, run env p db = putStore env p db g pre ∧ g.filesNS = filesNS env ∧
      g.chunksNS = chunksNS env ∧
      (∀ v, p.chunkSize = some v → ¬ (v < 0 ∨ v > env.bsonObjMaxUserSize - 16 * 1024)) ∧
      (pre = stamp db [Event.newGridFS env.dbName env.coll] ∨
        ∃ v, pre = stamp db [Event.newGridFS env.dbName env.coll, Event.setChunkSize v])) := by
  rw [run_put env p db h hf]
  cases hc : p.chunkSize with
  | none =>
    exact Or.inr ⟨grid env, _, rfl, rfl, rfl, by simp, Or.inl rfl⟩
  | some v =>
    by_cases h1 : v < 0
    · refine Or.inl ⟨v, "ERROR: Chunk size cannot be negative\n", rfl, Or.inl h1, ?_⟩
      simp only [if_pos h1]
      rfl
    · by_cases h2 : v > env.bsonObjMaxUserSize - 16 * 1024
      · refine Or.inl ⟨v, "ERROR: Chunk size beyond maximum document size\n", rfl,
          Or.inr h2, ?_⟩
        simp only [if_neg h1, if_pos h2]
        rfl
      · by_cases h3 : v > 0
        · refine Or.inr ⟨(grid env).setChunkSize v,
            stamp db [Event.newGridFS env.dbName env.coll, Event.setChunkSize v], ?_, rfl, rfl,
            ?_, Or.inr ⟨v, rfl⟩⟩
          · simp only [if_neg h1, if_neg h2, if_pos h3]
            rfl
          · intro w hw
            cases hw
            exact not_or.2 ⟨h1, h2⟩
        · refine Or.inr ⟨grid env, stamp db [Event.newGridFS env.dbName env.coll], ?_, rfl,
            rfl, ?_, Or.inl rfl⟩
          · simp only [if_neg h1, if_neg h2, if_neg h3]
          · intro w hw
            cases hw
            exact not_or.2 ⟨h1, h2⟩

theorem storeFile_log_events (g : GridFS) (env : Env) (db : DB) (i f t : String) :
    ∀ x ∈ (g.storeFile env db i f t).2.1, ∃ ns d, x.1 = Event.insert ns d := by
  intro x hx
  simp only [GridFS.storeFile, List.mem_append, List.mem_singleton] at hx
  rcases hx with hx | rfl
  · obtain ⟨d, hd⟩ := insertAll_log_events _ _ _ x hx
    exact ⟨_, d, hd⟩
  · exact ⟨_, _, rfl⟩

/-- Every action of `putStore` after the given ones is the call of `storeFile`, an insertion, a
report, the query of the replace step, a removal, `getLastError` or the final line. -/
theorem putStore_events (env : Env) (p : Params) (db : DB) (g : GridFS) (pre : Log) :
    ∀ e ∈ (putStore env p db g pre).log.events,
      e ∈ pre.events ∨ (∃ i f t, e = Event.storeFile i f t) ∨ (∃ ns d, e = Event.insert ns d) ∨
      (∃ l o, e = Event.printObj l o) ∨ (∃ ns q, e = Event.query ns q) ∨
      (∃ ns q, e = Event.remove ns q) ∨ e = Event.getLastError ∨
      (∃ t, e = Event.print OStream.cout t) := by
  intro e he
  rw [putStore_log] at he
  simp only [Log.events, List.map_append, List.map_cons, List.mem_append, List.mem_cons,
    List.mem_map] at he
  rcases he with ⟨x, hx, rfl⟩ | rfl | ⟨x, hx, rfl⟩ | rfl | ⟨x, hx, rfl⟩ | ⟨x, hx, rfl⟩
  · exact Or.inl (List.mem_map.2 ⟨x, hx, rfl⟩)
  · exact Or.inr (Or.inl ⟨_, _, _, rfl⟩)
  · exact Or.inr (Or.inr (Or.inl (storeFile_log_events _ _ _ _ _ _ x hx)))
  · exact Or.inr (Or.inr (Or.inr (Or.inl ⟨_, _, rfl⟩)))
  · cases hrep : p.replace
    · simp [hrep] at hx
    · simp only [hrep, if_true, List.mem_cons] at hx
      rcases hx with rfl | hx
      · exact Or.inr (Or.inr (Or.inr (Or.inr (Or.inl ⟨_, _, rfl⟩))))
      · obtain ⟨o, _, h | h | h⟩ := replaceLoop_log_events _ _ _ x hx
        · exact Or.inr (Or.inr (Or.inr (Or.inr (Or.inr (Or.inl ⟨_, _, h⟩)))))
        · exact Or.inr (Or.inr (Or.inr (Or.inr (Or.inr (Or.inl ⟨_, _, h⟩)))))
        · exact Or.inr (Or.inr (Or.inr (Or.inl ⟨_, _, h⟩)))
  · simp only [stamp, List.map_cons, List.map_nil, List.mem_cons, List.mem_singleton,
      List.not_mem_nil, or_false] at hx
    rcases hx with rfl | rfl
    · exact Or.inr (Or.inr (Or.inr (Or.inr (Or.inr (Or.inr (Or.inl rfl))))))
    · exact Or.inr (Or.inr (Or.inr (Or.inr (Or.inr (Or.inr (Or.inr ⟨_, rfl⟩))))))

/-- The objects that the replace step of `put` removes: the ones the query of line 152 returns
on the files collection as `storeFile` left it. -/
theorem putStore_cursor (env : Env) (p : Params) (db : DB) (g : GridFS)
    (hF : g.filesNS = filesNS env) (hC : g.chunksNS = chunksNS env) :
    (stored env p db g).2.2.query
        (filesNS env)
        (replaceQuery p.file
          (stored env p db g).1) =
      (db (filesNS env)).filter
        (fun d => d.get "filename" == Elem.str p.file && d.get "_id" != Elem.oid env.freshOID) := by
  have hg : g.filesNS ≠ g.chunksNS := by
    rw [hF, hC]
    exact filesNS_ne_chunksNS env
  have h1 : (stored env p db g).2.2 (filesNS env) =
      db (filesNS env) ++ [(stored env p db g).1] := by
    rw [← hF]
    exact storeFile_files g env db _ _ _ hg
  have hid : (stored env p db g).1.get
      "_id" = Elem.oid env.freshOID := fileDoc_id _ _ _ _ _ _
  have hm : (replaceQuery p.file
      (stored env p db g).1).matches =
      fun d => d.get "filename" == Elem.str p.file && d.get "_id" != Elem.oid env.freshOID := by
    funext d
    rw [matches_replaceQuery, hid]
  simp only [DB.query, h1, List.filter_append, hm]
  simp [hid]

theorem putStore_replace_files (env : Env) (p : Params) (db : DB) (g : GridFS) (pre : Log)
    (hF : g.filesNS = filesNS env) (hC : g.chunksNS = chunksNS env) (hrep : p.replace = true) :
    (putStore env p db g pre).final (filesNS env) =
      (db (filesNS env) ++
          [(stored env p db g).1]).filter
        (fun d => decide (d.get "_id" ∉
          ((db (filesNS env)).filter (fun d => d.get "filename" == Elem.str p.file &&
            d.get "_id" != Elem.oid env.freshOID)).map (fun o => o.get "_id"))) := by
  have hg : g.filesNS ≠ g.chunksNS := by
    rw [hF, hC]
    exact filesNS_ne_chunksNS env
  have h1 : (stored env p db g).2.2 (filesNS env) =
      db (filesNS env) ++ [(stored env p db g).1] := by
    rw [← hF]
    exact storeFile_files g env db _ _ _ hg
  rw [putStore_final_replace env p db g pre hrep, replaceLoop_files, putStore_cursor env p db g hF hC,
    h1]

theorem putStore_replace_chunks (env : Env) (p : Params) (db : DB) (g : GridFS) (pre : Log)
    (hF : g.filesNS = filesNS env) (hC : g.chunksNS = chunksNS env) (hrep : p.replace = true) :
    (putStore env p db g pre).final (chunksNS env) =
      (db (chunksNS env) ++
          chunkDocs env.freshOID g.chunkSize (env.readLocal (p.localPath.getD p.file))).filter
        (fun c => decide (c.get "files_id" ∉
          ((db (filesNS env)).filter (fun d => d.get "filename" == Elem.str p.file &&
            d.get "_id" != Elem.oid env.freshOID)).map (fun o => o.get "_id"))) := by
  have hg : g.filesNS ≠ g.chunksNS := by
    rw [hF, hC]
    exact filesNS_ne_chunksNS env
  have h1 : (stored env p db g).2.2 (chunksNS env) = db (chunksNS env) ++
      chunkDocs env.freshOID g.chunkSize (env.readLocal (p.localPath.getD p.file)) := by
    rw [← hC]
    exact storeFile_chunks g env db _ _ _ hg
  rw [putStore_final_replace env p db g pre hrep, replaceLoop_chunks,
    putStore_cursor env p db g hF hC, h1]

/-- No object of the cursor of the replace step has the identity of the new object. -/
theorem fresh_not_in_cursor (docs : List BSONObj) (x : String) (id : Elem) :
    id ∉ (docs.filter (fun d => d.get "filename" == Elem.str x && d.get "_id" != id)).map
      (fun o => o.get "_id") := by
  intro h
  simp only [List.mem_map, List.mem_filter, Bool.and_eq_true, beq_iff_eq, bne_iff_ne] at h
  obtain ⟨o, ⟨_, _, hne⟩, he⟩ := h
  exact hne he

theorem findFile_exists (g : GridFS) (db : DB) (x : String) (d : BSONObj)
    (hd : d ∈ db g.filesNS) (hn : d.get "filename" = Elem.str x) :
    (g.findFile db x).fileExists = true := by
  simp only [GridFS.findFile, DB.findOne, GridFile.fileExists, List.find?_isSome]
  exact ⟨d, hd, by simp [matches_id, hn]⟩

/-- The log of `putStore`, cut at the insertion of the new metadata document. -/
theorem putStore_log_cut (env : Env) (p : Params) (db : DB) (g : GridFS) (pre : Log) :
    (putStore env p db g pre).log =
      (pre ++ (Event.storeFile (p.localPath.getD p.file) p.file (p.mimeType.getD ""), db) ::
        (insertAll g.chunksNS
          (chunkDocs env.freshOID g.chunkSize (env.readLocal (p.localPath.getD p.file))) db).1) ++
      (Event.insert g.filesNS (stored env p db g).1, (stored env p db g).2.2) ::
        putTail env p db g pre := by
  rw [putStore_log]
  simp only [putTail, stored, GridFS.storeFile, List.append_assoc, List.cons_append,
    List.nil_append, List.singleton_append]

theorem stored_files (env : Env) (p : Params) (db : DB) (g : GridFS)
    (hF : g.filesNS = filesNS env) (hC : g.chunksNS = chunksNS env) :
    (stored env p db g).2.2 (filesNS env) = db (filesNS env) ++ [(stored env p db g).1] := by
  have hg : g.filesNS ≠ g.chunksNS := by
    rw [hF, hC]
    exact filesNS_ne_chunksNS env
  rw [← hF]
  exact storeFile_files g env db _ _ _ hg

theorem stored_chunks (env : Env) (p : Params) (db : DB) (g : GridFS)
    (hF : g.filesNS = filesNS env) (hC : g.chunksNS = chunksNS env) :
    (stored env p db g).2.2 (chunksNS env) = db (chunksNS env) ++
      chunkDocs env.freshOID g.chunkSize (env.readLocal (p.localPath.getD p.file)) := by
  have hg : g.filesNS ≠ g.chunksNS := by
    rw [hF, hC]
    exact filesNS_ne_chunksNS env
  rw [← hC]
  exact storeFile_chunks g env db _ _ _ hg

/-- The new metadata document is in the files collection when `putStore` ends. -/
theorem putStore_final_has_new (env : Env) (p : Params) (db : DB) (g : GridFS) (pre : Log)
    (hF : g.filesNS = filesNS env) (hC : g.chunksNS = chunksNS env) :
    (stored env p db g).1 ∈ (putStore env p db g pre).final (filesNS env) := by
  cases hrep : p.replace
  · rw [putStore_final_plain env p db g pre hrep, stored_files env p db g hF hC]
    simp
  · rw [putStore_replace_files env p db g pre hF hC hrep, List.mem_filter]
    refine ⟨by simp, ?_⟩
    rw [decide_eq_true_eq, stored_fst, fileDoc_id]
    exact fresh_not_in_cursor _ _ _

/-- From the insertion of the new metadata document on, every state of the store has it in the
files collection. -/
theorem putTail_has_new (env : Env) (p : Params) (db : DB) (g : GridFS) (pre : Log)
    (hF : g.filesNS = filesNS env) (hC : g.chunksNS = chunksNS env) :
    ∀ x ∈ (Event.insert g.filesNS (stored env p db g).1, (stored env p db g).2.2) ::
        putTail env p db g pre,
      (stored env p db g).1 ∈ x.2 (filesNS env) := by
  have h1 : (stored env p db g).1 ∈ (stored env p db g).2.2 (filesNS env) := by
    rw [stored_files env p db g hF hC]
    simp
  intro x hx
  simp only [putTail, List.mem_cons, List.mem_append] at hx
  rcases hx with rfl | rfl | hx | hx
  · exact h1
  · exact h1
  · cases hrep : p.replace
    · simp [hrep] at hx
    · simp only [hrep, if_true, List.mem_cons] at hx
      rcases hx with rfl | hx
      · exact h1
      · apply replaceLoop_log_keeps env _ _ x hx _ h1
        rw [putStore_cursor env p db g hF hC, stored_fst, fileDoc_id]
        exact fresh_not_in_cursor _ _ _
  · simp only [stamp, List.map_cons, List.map_nil, List.mem_cons, List.mem_singleton,
      List.not_mem_nil, or_false] at hx
    rcases hx with rfl | rfl <;> exact putStore_final_has_new env p db g pre hF hC

/-- Before the insertion of the new metadata document, the files collection is as it was and
nothing was inserted into it or removed. -/
theorem putStore_head_states (env : Env) (p : Params) (db : DB) (g : GridFS) (pre : Log)
    (hC : g.chunksNS = chunksNS env)
    (hpre : ∀ x ∈ pre, x.2 = db ∧
      ((∃ a b, x.1 = Event.newGridFS a b) ∨ ∃ v, x.1 = Event.setChunkSize v)) :
    ∀ x ∈ pre ++ (Event.storeFile (p.localPath.getD p.file) p.file (p.mimeType.getD ""), db) ::
        (insertAll g.chunksNS
          (chunkDocs env.freshOID g.chunkSize (env.readLocal (p.localPath.getD p.file))) db).1,
      x.2 (filesNS env) = db (filesNS env) ∧ (∀ f, x.1 ≠ Event.insert (filesNS env) f) ∧
        ∀ ns q, x.1 ≠ Event.remove ns q := by
  intro x hx
  simp only [List.mem_append, List.mem_cons] at hx
  rcases hx with hx | rfl | hx
  · obtain ⟨h1, h2⟩ := hpre x hx
    refine ⟨by rw [h1], ?_, ?_⟩
    · intro f hf
      rcases h2 with ⟨a, b, h⟩ | ⟨v, h⟩ <;> rw [h] at hf <;> cases hf
    · intro ns q hf
      rcases h2 with ⟨a, b, h⟩ | ⟨v, h⟩ <;> rw [h] at hf <;> cases hf
  · exact ⟨rfl, by simp, by simp⟩
  · have hne : filesNS env ≠ g.chunksNS := by
      rw [hC]
      exact filesNS_ne_chunksNS env
    obtain ⟨d, hd⟩ := insertAll_log_events _ _ _ x hx
    refine ⟨insertAll_log_other _ _ _ _ hne x hx, ?_, ?_⟩
    · intro f hf
      rw [hd] at hf
      injection hf with h1 _
      exact hne h1.symm
    · intro ns q hf
      rw [hd] at hf
      cases hf

/-- After the insertion of the new metadata document nothing is inserted, and every removal
is one of the replace step, on the identity of an object of the cursor. -/
theorem putTail_events (env : Env) (p : Params) (db : DB) (g : GridFS) (pre : Log)
    (hF : g.filesNS = filesNS env) (hC : g.chunksNS = chunksNS env) :
    ∀ x ∈ putTail env p db g pre,
      (∀ ns f, x.1 ≠ Event.insert ns f) ∧
      ∀ ns q, x.1 = Event.remove ns q →
        p.replace = true ∧
        ∃ o ∈ (db (filesNS env)).filter (fun d => d.get "filename" == Elem.str p.file &&
            d.get "_id" != Elem.oid env.freshOID),
          (ns = filesNS env ∧ q = [("_id", Cond.eq (o.get "_id"))]) ∨
          (ns = chunksNS env ∧ q = [("files_id", Cond.eq (o.get "_id"))]) := by
  intro x hx
  simp only [putTail, List.mem_cons, List.mem_append] at hx
  rcases hx with rfl | hx | hx
  · exact ⟨by simp, by simp⟩
  · cases hrep : p.replace
    · simp [hrep] at hx
    · simp only [hrep, if_true, List.mem_cons] at hx
      rcases hx with rfl | hx
      · exact ⟨by simp, by simp⟩
      · obtain ⟨o, ho, h⟩ := replaceLoop_log_events _ _ _ x hx
        rw [putStore_cursor env p db g hF hC] at ho
        refine ⟨?_, ?_⟩
        · intro ns f hf
          rcases h with h | h | h <;> rw [h] at hf <;> cases hf
        · intro ns q hq
          refine ⟨rfl, o, ho, ?_⟩
          rcases h with h | h | h
          · rw [h] at hq
            injection hq with h1 h2
            exact Or.inl ⟨h1.symm, h2.symm⟩
          · rw [h] at hq
            injection hq with h1 h2
            exact Or.inr ⟨h1.symm, h2.symm⟩
          · rw [h] at hq
            cases hq
  · simp only [stamp, List.map_cons, List.map_nil, List.mem_cons, List.mem_singleton,
      List.not_mem_nil, or_false] at hx
    rcases hx with rfl | rfl <;>
      exact ⟨by simp, by simp⟩

/-- The assumptions on the actions before `putStore` hold in `run`. -/
theorem pre_ok (env : Env) (db : DB) (pre : Log)
    (h : pre = stamp db [Event.newGridFS env.dbName env.coll] ∨
      ∃ v, pre = stamp db [Event.newGridFS env.dbName env.coll, Event.setChunkSize v]) :
    ∀ x ∈ pre, x.2 = db ∧
      ((∃ a b, x.1 = Event.newGridFS a b) ∨ ∃ v, x.1 = Event.setChunkSize v) := by
  intro x hx
  rcases h with rfl | ⟨v, rfl⟩
  · simp only [stamp, List.map_cons, List.map_nil, List.mem_singleton] at hx
    subst hx
    exact ⟨rfl, Or.inl ⟨_, _, rfl⟩⟩
  · simp only [stamp, List.map_cons, List.map_nil, List.mem_cons, List.mem_singleton,
      List.not_mem_nil, or_false] at hx
    rcases hx with rfl | rfl
    · exact ⟨rfl, Or.inl ⟨_, _, rfl⟩⟩
    · exact ⟨rfl, Or.inr ⟨_, rfl⟩⟩

theorem replaceLoop_removes_each (env : Env) (cur : List BSONObj) (db : DB) :
    ∀ o ∈ cur, (Event.remove (filesNS env) [("_id", Cond.eq (o.get "_id"))]) ∈
      (replaceLoop env cur db).1.events := by
  induction cur generalizing db with
  | nil => simp
  | cons o2 rest ih =>
    intro o ho
    rw [List.mem_cons] at ho
    rcases ho with rfl | ho
    · simp [replaceLoop, Log.events, filesNS]
    · have := ih (((db.remove (filesNS env) [("_id", Cond.eq (o2.get "_id"))]).remove
        (chunksNS env) [("files_id", Cond.eq (o2.get "_id"))])) o ho
      simp only [replaceLoop, Log.events, List.map_cons, List.mem_cons]
      exact Or.inr (Or.inr (Or.inr this))

theorem putStore_other (env : Env) (p : Params) (db : DB) (g : GridFS) (pre : Log)
    (hF : g.filesNS = filesNS env) (hC : g.chunksNS = chunksNS env) (n : String)
    (h1 : n ≠ filesNS env) (h2 : n ≠ chunksNS env) :
    (putStore env p db g pre).final n = db n := by
  have hs : (stored env p db g).2.2 n = db n :=
    storeFile_other g env db _ _ _ n (by rw [hF]; exact h1) (by rw [hC]; exact h2)
  cases hrep : p.replace
  · rw [putStore_final_plain env p db g pre hrep, hs]
  · rw [putStore_final_replace env p db g pre hrep, replaceLoop_other env _ _ n h1 h2, hs]

theorem display_events (g : GridFS) (db : DB) (q : Query) :
    (display g db q).map Prod.fst =
      Event.list q :: ((db g.filesNS).filter q.matches).map row := by
  simp [display, stamp, GridFS.list, DB.query, Function.comp_def]

theorem matches_regex (pat : String) (doc : BSONObj) :
    Query.matches [("filename", Cond.regex pat)] doc = true ↔
      ∃ s, doc.get "filename" = Elem.str s ∧ Pcre.search pat s = some true := by
  simp only [Query.matches, List.all_cons, List.all_nil, Bool.and_true, Cond.holds]
  cases h : doc.get "filename" <;> simp

theorem append_left_cancel (a b c : String) : a ++ b = a ++ c ↔ b = c := by
  constructor
  · intro h
    have h2 := congrArg String.data h
    simp only [String.data_append, List.append_cancel_left_eq] at h2
    exact String.ext h2
  · intro h
    rw [h]

end Files

/-! The properties of the specification -/

/-- C1: chunk-size validation in `put` with a file name. With `v` the value of the chunk-size
option and `MAX = BSONObjMaxUserSize - 16 * 1024` (not negative: the maximum document size is
at least the reserve): if `v < 0` or `v > MAX`, `run` returns -3, the only actions are the
construction of the `GridFS` and the error line, and the store is left as it was (no
`storeFile`, insertion or removal); if `v = 0`, `run` behaves exactly as without the option and
never calls `setChunkSize`; if `0 < v ≤ MAX`, `setChunkSize(v)` is called right before
`storeFile` and the stored object records `v` as its chunk size. `put` returns -3 only when the
option is present with a value below 0 or above `MAX`. -/
theorem Files.put_chunk_size_validation (env : Env) (p : Params) (db : DB) (v : Int)
    (hmax : 16 * 1024 ≤ env.bsonObjMaxUserSize)
    (hcmd : p.command = "put") (hfile : p.file ≠ "") (hv : p.chunkSize = some v) :
    ((v < 0 ∨ v > env.bsonObjMaxUserSize - 16 * 1024) →
      (Files.run env p db).code = -3 ∧ (Files.run env p db).final = db ∧
      (∃ msg, (Files.run env p db).log =
        stamp db [Event.newGridFS env.dbName env.coll, Event.print OStream.cerr msg]) ∧
      (∀ i f t, Event.storeFile i f t ∉ (Files.run env p db).log.events) ∧
      (∀ ns d, Event.insert ns d ∉ (Files.run env p db).log.events) ∧
      (∀ ns q, Event.remove ns q ∉ (Files.run env p db).log.events)) ∧
    (v = 0 →
      Files.run env p db = Files.run env { p with chunkSize := none } db ∧
      ∀ n, Event.setChunkSize n ∉ (Files.run env p db).log.events) ∧
    (0 < v → v ≤ env.bsonObjMaxUserSize - 16 * 1024 →
      (Files.run env p db).code = 0 ∧
      ∃ rest, (Files.run env p db).log.events =
        Event.newGridFS env.dbName env.coll :: Event.setChunkSize v ::
          Event.storeFile (p.localPath.getD p.file) p.file (p.mimeType.getD "") :: rest ∧
        Event.insert (Files.filesNS env)
          (fileDoc env env.freshOID p.file (p.mimeType.getD "") v.toNat
            (env.readLocal (p.localPath.getD p.file))) ∈ rest) ∧
    ((Files.run env p db).code = -3 ↔ (v < 0 ∨ v > env.bsonObjMaxUserSize - 16 * 1024)) ∧
    (∀ p2 : Params, p2.command = "put" → p2.file ≠ "" → (Files.run env p2 db).code = -3 →
      ∃ w, p2.chunkSize = some w ∧ (w < 0 ∨ w > env.bsonObjMaxUserSize - 16 * 1024)) := by
  have hbad : (v < 0 ∨ v > env.bsonObjMaxUserSize - 16 * 1024) →
      ∃ msg, Files.run env p db =
        { code := -3
          log := stamp db [Event.newGridFS env.dbName env.coll, Event.print OStream.cerr msg]
          final := db } := by
    intro hb
    rcases Files.run_put_cases env p db hcmd hfile with
      ⟨w, msg, hw, _, hr⟩ | ⟨g, pre, _, _, _, hok, _⟩
    · exact ⟨msg, hr⟩
    · exact absurd hb (hok v hv)
  have hgood : ¬ (v < 0 ∨ v > env.bsonObjMaxUserSize - 16 * 1024) →
      (Files.run env p db).code = 0 := by
    intro hb
    rcases Files.run_put_cases env p db hcmd hfile with ⟨w, msg, hw, hwb, hr⟩ | ⟨g, pre, hr, _⟩
    · rw [hv] at hw
      cases hw
      exact absurd hwb hb
    · rw [hr]
      rfl
  have e1 := Files.run_put env p db hcmd hfile
  rw [hv] at e1
  dsimp only at e1
  refine ⟨?_, ?_, ?_, ?_, ?_⟩
  · intro hb
    obtain ⟨msg, hr⟩ := hbad hb
    rw [hr]
    refine ⟨rfl, rfl, ⟨msg, rfl⟩, ?_, ?_, ?_⟩ <;> intros <;> simp [Log.events, stamp]
  · intro h0
    subst h0
    have hm : ¬ (0 : Int) > env.bsonObjMaxUserSize - 16 * 1024 := by omega
    rw [if_neg (lt_irrefl 0), if_neg hm, if_neg (lt_irrefl 0)] at e1
    have e2 := Files.run_put env { p with chunkSize := none } db hcmd hfile
    dsimp only at e2
    refine ⟨?_, ?_⟩
    · rw [e1, e2]
      rfl
    · intro n hn
      rw [e1] at hn
      rcases Files.putStore_events _ _ _ _ _ _ hn with
        h | ⟨_, _, _, h⟩ | ⟨_, _, h⟩ | ⟨_, _, h⟩ | ⟨_, _, h⟩ | ⟨_, _, h⟩ | h | ⟨_, h⟩
      · simp [Log.events, stamp] at h
      all_goals cases h
  · intro hpos hle
    have h1 : ¬ v < 0 := by omega
    have h2 : ¬ v > env.bsonObjMaxUserSize - 16 * 1024 := by omega
    rw [if_neg h1, if_neg h2, if_pos hpos] at e1
    refine ⟨hgood (not_or.2 ⟨h1, h2⟩), ?_⟩
    rw [e1, Files.putStore_log]
    refine ⟨_, rfl, ?_⟩
    simp [Log.events, Files.stored, GridFS.storeFile, GridFS.setChunkSize, Files.grid,
      GridFS.new, Files.filesNS]
  · constructor
    · intro hc
      by_contra hb
      rw [hgood hb] at hc
      exact absurd hc (by decide)
    · intro hb
      obtain ⟨msg, hr⟩ := hbad hb
      rw [hr]
  · intro p2 hc2 hf2 hcode
    rcases Files.run_put_cases env p2 db hc2 hf2 with
      ⟨w, msg, hw, hwb, _⟩ | ⟨g, pre, hr, _⟩
    · exact ⟨w, hw, hwb⟩
    · rw [hr, Files.putStore_code] at hcode
      exact absurd hcode (by decide)

/-- C2: result of `put x --replace`. If the run completes with code 0 and the identity given to
the new object differs from the `_id` of every document that was in the files collection, then
afterwards the files collection holds exactly one document named `x`: the metadata document
that `storeFile` returned (the one reported as added), whatever number of documents named `x`
there was before. -/
theorem Files.put_replace_leaves_newest (env : Env) (p : Params) (db : DB)
    (hcmd : p.command = "put") (hfile : p.file ≠ "") (hrep : p.replace = true)
    (hcode : (Files.run env p db).code = 0)
    (hfresh : ∀ d ∈ db (Files.filesNS env), d.get "_id" ≠ Elem.oid env.freshOID) :
    ∃ size file,
      file = fileDoc env env.freshOID p.file (p.mimeType.getD "") size
        (env.readLocal (p.localPath.getD p.file)) ∧
      Event.printObj "added file: " file ∈ (Files.run env p db).log.events ∧
      ((Files.run env p db).final (Files.filesNS env)).filter
        (fun d => d.get "filename" == Elem.str p.file) = [file] := by
  rcases Files.run_put_cases env p db hcmd hfile with
    ⟨w, msg, _, _, hr⟩ | ⟨g, pre, hr, hF, hC, _, _⟩
  · rw [hr] at hcode
    simp at hcode
  · refine ⟨g.chunkSize, _, rfl, ?_, ?_⟩
    · rw [hr, Files.putStore_log]
      simp [Log.events, Files.stored, GridFS.storeFile]
    · rw [hr, Files.putStore_replace_files env p db g pre hF hC hrep, List.filter_filter,
        List.filter_append]
      have hnil : (db (Files.filesNS env)).filter
          (fun d => d.get "filename" == Elem.str p.file &&
            decide (d.get "_id" ∉
              ((db (Files.filesNS env)).filter (fun d => d.get "filename" == Elem.str p.file &&
                d.get "_id" != Elem.oid env.freshOID)).map (fun o => o.get "_id"))) = [] := by
        rw [List.filter_eq_nil_iff]
        intro d hd hc
        simp only [Bool.and_eq_true, beq_iff_eq, decide_eq_true_eq] at hc
        apply hc.2
        refine List.mem_map.2 ⟨d, ?_, rfl⟩
        simp [List.mem_filter, hd, hc.1, hfresh d hd]
      rw [hnil]
      have hid := fileDoc_id env env.freshOID p.file (p.mimeType.getD "") g.chunkSize
        (env.readLocal (p.localPath.getD p.file))
      have hname := fileDoc_filename env env.freshOID p.file (p.mimeType.getD "") g.chunkSize
        (env.readLocal (p.localPath.getD p.file))
      have hnot := Files.fresh_not_in_cursor (db (Files.filesNS env)) p.file
        (Elem.oid env.freshOID)
      simp only [Files.stored, GridFS.storeFile, List.nil_append]
      rw [List.filter_cons_of_pos]
      · rfl
      · simp only [hname, hid, beq_self_eq_true, Bool.true_and, decide_eq_true_eq]
        exact hnot

/-- C6: ordering of `put x --replace`. The call of `storeFile` comes before any removal; every
removal on the files collection is on an `_id` other than that of the new object, and every
document named `x` with another `_id` gets such a removal; from the
insertion of the new metadata document (named `x`) to the end of the run, every state of the
store has that document in the files collection; and if a document named `x` was there before
the run, then in the initial state, in every state of the run (the states inside `storeFile`
included) and in the final state, `findFile x` finds an object. -/
theorem Files.put_replace_never_zero (env : Env) (p : Params) (db : DB)
    (hcmd : p.command = "put") (hfile : p.file ≠ "") (hrep : p.replace = true) :
    (∀ A B ns q, (Files.run env p db).log.events = A ++ Event.remove ns q :: B →
      ∃ i f t, Event.storeFile i f t ∈ A) ∧
    (∀ q, Event.remove (Files.filesNS env) q ∈ (Files.run env p db).log.events →
      ∃ v, q = [("_id", Cond.eq v)] ∧ v ≠ Elem.oid env.freshOID) ∧
    ((Files.run env p db).code = 0 →
      (∃ file, Event.insert (Files.filesNS env) file ∈ (Files.run env p db).log.events) ∧
      ∀ d ∈ db (Files.filesNS env), d.get "filename" = Elem.str p.file →
        d.get "_id" ≠ Elem.oid env.freshOID →
        Event.remove (Files.filesNS env) [("_id", Cond.eq (d.get "_id"))] ∈
          (Files.run env p db).log.events) ∧
    (∀ file, Event.insert (Files.filesNS env) file ∈ (Files.run env p db).log.events →
      file.get "filename" = Elem.str p.file ∧ file.get "_id" = Elem.oid env.freshOID ∧
      file ∈ (Files.run env p db).final (Files.filesNS env) ∧
      ∀ A x B, (Files.run env p db).log = A ++ x :: B →
        Event.insert (Files.filesNS env) file ∈ Log.events (A ++ [x]) →
        file ∈ x.2 (Files.filesNS env)) ∧
    ((∃ d ∈ db (Files.filesNS env), d.get "filename" = Elem.str p.file) →
      (∀ st ∈ db :: (Files.run env p db).log.states,
        ((Files.grid env).findFile st p.file).fileExists = true) ∧
      ((Files.grid env).findFile (Files.run env p db).final p.file).fileExists = true) := by
  rcases Files.run_put_cases env p db hcmd hfile with
    ⟨w, msg, _, _, hr⟩ | ⟨g, pre, hr, hF, hC, _, hpre0⟩
  · rw [hr]
    refine ⟨?_, ?_, ?_, ?_, ?_⟩
    · intro A B ns q h
      have hm : Event.remove ns q ∈ A ++ Event.remove ns q :: B := by simp
      rw [← h] at hm
      simp [Log.events, stamp] at hm
    · intro q h
      simp [Log.events, stamp] at h
    · intro h
      simp at h
    · intro file h
      simp [Log.events, stamp] at h
    · rintro ⟨d, hd, hn⟩
      refine ⟨?_, Files.findFile_exists _ _ _ d hd hn⟩
      intro st hst
      have : st = db := by
        simp only [Log.states, stamp, List.map_cons, List.map_nil, List.mem_cons,
          List.mem_singleton, List.not_mem_nil, or_false] at hst
        rcases hst with h | h | h <;> exact h
      rw [this]
      exact Files.findFile_exists _ _ _ d hd hn
  · have hpre := Files.pre_ok env db pre hpre0
    have hcut := Files.putStore_log_cut env p db g pre
    have hhead := Files.putStore_head_states env p db g pre hC hpre
    have htail := Files.putTail_events env p db g pre hF hC
    have hnew := Files.putTail_has_new env p db g pre hF hC
    have hname : (Files.stored env p db g).1.get "filename" = Elem.str p.file := by
      rw [Files.stored_fst, fileDoc_filename]
    have hid : (Files.stored env p db g).1.get "_id" = Elem.oid env.freshOID := by
      rw [Files.stored_fst, fileDoc_id]
    -- every insertion into the files collection is the one of the new document
    have hins : ∀ x ∈ (Files.putStore env p db g pre).log, ∀ file,
        x.1 = Event.insert (Files.filesNS env) file → file = (Files.stored env p db g).1 := by
      intro x hx file hxe
      rw [hcut, List.mem_append, List.mem_cons] at hx
      rcases hx with hx | rfl | hx
      · exact absurd hxe ((hhead x hx).2.1 file)
      · injection hxe with _ h2
        exact h2.symm
      · exact absurd hxe ((htail x hx).1 _ file)
    rw [hr]
    refine ⟨?_, ?_, ?_, ?_, ?_⟩
    · intro A B ns q h
      have hev : (Files.putStore env p db g pre).log.events =
          pre.events ++ Event.storeFile (p.localPath.getD p.file) p.file (p.mimeType.getD "") ::
            ((Files.stored env p db g).2.1 ++
              Files.putTail env p db g pre).events := by
        rw [Files.putStore_log]
        simp [Log.events, Files.putTail]
      rw [hev] at h
      refine ⟨_, _, _, mem_before _ _ _ _ _ _ h ?_ (by simp)⟩
      intro hm
      obtain ⟨x, hx, hxe⟩ := List.mem_map.1 hm
      rcases (hpre x hx).2 with ⟨a, b, h2⟩ | ⟨v, h2⟩ <;> rw [h2] at hxe <;> cases hxe
    · intro q hq
      obtain ⟨x, hx, hxe⟩ := List.mem_map.1 hq
      rw [hcut, List.mem_append, List.mem_cons] at hx
      rcases hx with hx | rfl | hx
      · exact absurd hxe ((hhead x hx).2.2 _ q)
      · cases hxe
      · obtain ⟨_, o, ho, h | h⟩ := (htail x hx).2 _ q hxe
        · refine ⟨o.get "_id", h.2, ?_⟩
          simp only [List.mem_filter, Bool.and_eq_true, bne_iff_ne] at ho
          exact ho.2.2
        · exact absurd h.1 (filesNS_ne_chunksNS env)
    · intro _
      refine ⟨⟨(Files.stored env p db g).1, List.mem_map.2
        ⟨(Event.insert (Files.filesNS env) (Files.stored env p db g).1,
          (Files.stored env p db g).2.2), ?_, rfl⟩⟩, ?_⟩
      · rw [hcut, hF]
        simp
      · intro d hd hn hne
        have hmem : d ∈ (Files.stored env p db g).2.2.query (Files.filesNS env)
            (Files.replaceQuery p.file (Files.stored env p db g).1) := by
          rw [Files.putStore_cursor env p db g hF hC]
          simp [List.mem_filter, hd, hn, hne]
        have hev := Files.replaceLoop_removes_each env _ (Files.stored env p db g).2.2 d hmem
        rw [hcut]
        simp only [Log.events, List.map_append, List.map_cons, List.mem_append, List.mem_cons,
          Files.putTail, hrep, if_true]
        exact Or.inr (Or.inr (Or.inr (Or.inl (Or.inr hev))))
    · intro file hfile2
      obtain ⟨x0, hx0, hxe0⟩ := List.mem_map.1 hfile2
      have hfe := hins x0 hx0 file hxe0
      subst hfe
      refine ⟨hname, hid, Files.putStore_final_has_new env p db g pre hF hC, ?_⟩
      intro A x B hsplit hmem
      rw [hcut] at hsplit
      refine holds_from_trigger
        (fun z => z.1 = Event.insert (Files.filesNS env) (Files.stored env p db g).1)
        (fun z => (Files.stored env p db g).1 ∈ z.2 (Files.filesNS env))
        _ _ _ A B x hsplit ?_ ?_ hnew
      · intro z hz
        exact (hhead z hz).2.1 _
      · obtain ⟨z, hz, hze⟩ := List.mem_map.1 hmem
        exact ⟨z, hz, hze⟩
    · rintro ⟨d, hd, hn⟩
      have hgF : (Files.grid env).filesNS = Files.filesNS env := rfl
      refine ⟨?_, ?_⟩
      · intro st hst
        rw [List.mem_cons] at hst
        rcases hst with rfl | hst
        · exact Files.findFile_exists _ _ _ d hd hn
        · obtain ⟨x, hx, rfl⟩ := List.mem_map.1 hst
          rw [hcut, List.mem_append] at hx
          rcases hx with hx | hx
          · refine Files.findFile_exists _ _ _ d ?_ hn
            rw [hgF, (hhead x hx).1]
            exact hd
          · exact Files.findFile_exists _ _ _ _ (hnew x hx) hname
      · exact Files.findFile_exists _ _ _ _
          (Files.putStore_final_has_new env p db g pre hF hC) hname

/-- C9: frame of the deletions of `put x` that returns 0, on a files collection whose documents
have distinct `_id`. Without `--replace` no removal is issued and the run only adds the new
metadata document and its chunks. With `--replace`: every document that was removed from the
files collection is named `x` and has an `_id` other than the new one, and no chunk with its
`_id` as `files_id` is left; every document with another name is still there, with every chunk
it owns; the new metadata document and its chunks are there; and both collections are
sublists of what `storeFile` left, so nothing was altered. Other collections are untouched. -/
theorem Files.put_deletion_frame (env : Env) (p : Params) (db : DB)
    (hcmd : p.command = "put") (hfile : p.file ≠ "")
    (hcode : (Files.run env p db).code = 0)
    (hnodup : ((db (Files.filesNS env)).map (fun d => d.get "_id")).Nodup) :
    ∃ size file chunks,
      file = fileDoc env env.freshOID p.file (p.mimeType.getD "") size
        (env.readLocal (p.localPath.getD p.file)) ∧
      chunks = chunkDocs env.freshOID size (env.readLocal (p.localPath.getD p.file)) ∧
      (p.replace = false →
        (∀ ns q, Event.remove ns q ∉ (Files.run env p db).log.events) ∧
        (Files.run env p db).final (Files.filesNS env) = db (Files.filesNS env) ++ [file] ∧
        (Files.run env p db).final (Files.chunksNS env) =
          db (Files.chunksNS env) ++ chunks) ∧
      (p.replace = true →
        (∀ d ∈ db (Files.filesNS env) ++ [file],
          d ∉ (Files.run env p db).final (Files.filesNS env) →
          d.get "filename" = Elem.str p.file ∧ d.get "_id" ≠ Elem.oid env.freshOID ∧
          ∀ c ∈ (Files.run env p db).final (Files.chunksNS env),
            c.get "files_id" ≠ d.get "_id") ∧
        (∀ d ∈ db (Files.filesNS env), d.get "filename" ≠ Elem.str p.file →
          d ∈ (Files.run env p db).final (Files.filesNS env) ∧
          ∀ c ∈ db (Files.chunksNS env), c.get "files_id" = d.get "_id" →
            c ∈ (Files.run env p db).final (Files.chunksNS env)) ∧
        file ∈ (Files.run env p db).final (Files.filesNS env) ∧
        (∀ c ∈ chunks, c ∈ (Files.run env p db).final (Files.chunksNS env)) ∧
        ((Files.run env p db).final (Files.filesNS env)).Sublist
          (db (Files.filesNS env) ++ [file]) ∧
        ((Files.run env p db).final (Files.chunksNS env)).Sublist
          (db (Files.chunksNS env) ++ chunks)) ∧
      ∀ n, n ≠ Files.filesNS env → n ≠ Files.chunksNS env →
        (Files.run env p db).final n = db n := by
  rcases Files.run_put_cases env p db hcmd hfile with
    ⟨w, msg, _, _, hr⟩ | ⟨g, pre, hr, hF, hC, _, hpre0⟩
  · rw [hr] at hcode
    simp at hcode
  · have hpre := Files.pre_ok env db pre hpre0
    have hcut := Files.putStore_log_cut env p db g pre
    have hhead := Files.putStore_head_states env p db g pre hC hpre
    have htail := Files.putTail_events env p db g pre hF hC
    have hid : (Files.stored env p db g).1.get "_id" = Elem.oid env.freshOID := by
      rw [Files.stored_fst, fileDoc_id]
    -- an `_id` of the cursor belongs to one document only, named `x`
    have hcur : ∀ d ∈ db (Files.filesNS env),
        d.get "_id" ∈ ((db (Files.filesNS env)).filter
          (fun d => d.get "filename" == Elem.str p.file &&
            d.get "_id" != Elem.oid env.freshOID)).map (fun o => o.get "_id") →
        d.get "filename" = Elem.str p.file ∧ d.get "_id" ≠ Elem.oid env.freshOID := by
      intro d hd hm
      obtain ⟨o, ho, hoe⟩ := List.mem_map.1 hm
      simp only [List.mem_filter, Bool.and_eq_true, beq_iff_eq, bne_iff_ne] at ho
      have := List.inj_on_of_nodup_map hnodup ho.1 hd hoe
      subst this
      exact ho.2
    rw [hr]
    refine ⟨g.chunkSize, (Files.stored env p db g).1, _, rfl, rfl, ?_, ?_, ?_⟩
    · intro hrep
      refine ⟨?_, ?_, ?_⟩
      · intro ns q hq
        obtain ⟨x, hx, hxe⟩ := List.mem_map.1 hq
        rw [hcut, List.mem_append, List.mem_cons] at hx
        rcases hx with hx | rfl | hx
        · exact (hhead x hx).2.2 ns q hxe
        · cases hxe
        · have := ((htail x hx).2 ns q hxe).1
          rw [hrep] at this
          cases this
      · rw [Files.putStore_final_plain env p db g pre hrep, Files.stored_files env p db g hF hC]
      · rw [Files.putStore_final_plain env p db g pre hrep, Files.stored_chunks env p db g hF hC]
    · intro hrep
      rw [Files.putStore_replace_files env p db g pre hF hC hrep,
        Files.putStore_replace_chunks env p db g pre hF hC hrep]
      refine ⟨?_, ?_, ?_, ?_, List.filter_sublist _, List.filter_sublist _⟩
      · intro d hd hgone
        have hin : d.get "_id" ∈ ((db (Files.filesNS env)).filter
            (fun d => d.get "filename" == Elem.str p.file &&
              d.get "_id" != Elem.oid env.freshOID)).map (fun o => o.get "_id") := by
          by_contra hc
          exact hgone (List.mem_filter.2 ⟨hd, by simpa using hc⟩)
        have hdb : d ∈ db (Files.filesNS env) := by
          rw [List.mem_append, List.mem_singleton] at hd
          rcases hd with hd | rfl
          · exact hd
          · rw [hid] at hin
            exact absurd hin (Files.fresh_not_in_cursor _ _ _)
        refine ⟨(hcur d hdb hin).1, (hcur d hdb hin).2, ?_⟩
        intro c hc he
        rw [List.mem_filter, decide_eq_true_eq, he] at hc
        exact hc.2 hin
      · intro d hd hn
        have hnot : d.get "_id" ∉ ((db (Files.filesNS env)).filter
            (fun d => d.get "filename" == Elem.str p.file &&
              d.get "_id" != Elem.oid env.freshOID)).map (fun o => o.get "_id") :=
          fun hm => hn (hcur d hd hm).1
        refine ⟨List.mem_filter.2 ⟨by simp [hd], by simpa using hnot⟩, ?_⟩
        intro c hc he
        refine List.mem_filter.2 ⟨by simp [hc], ?_⟩
        rw [decide_eq_true_eq, he]
        exact hnot
      · refine List.mem_filter.2 ⟨by simp, ?_⟩
        rw [decide_eq_true_eq, hid]
        exact Files.fresh_not_in_cursor _ _ _
      · intro c hc
        refine List.mem_filter.2 ⟨by simp [hc], ?_⟩
        rw [decide_eq_true_eq, chunkDocs_files_id _ _ _ c hc]
        exact Files.fresh_not_in_cursor _ _ _
    · intro n h1 h2
      exact Files.putStore_other env p db g pre hF hC n h1 h2

/-- C3: literal safety of `list`. For a name argument `p` (a C string, so without NUL), `list`
returns 0 and passes to `GridFS::list` a query that is the empty document when `p` is empty and
the regex `^` followed by `QuoteMeta(p)` on the field `filename` otherwise; that regex matches
a string exactly when `p`, taken as literal text, is at the start of the string; so the query
selects the documents whose filename begins with `p`, and these are the rows printed. -/
theorem Files.list_query_literal (env : Env) (p : Params) (db : DB)
    (hcmd : p.command = "list") (hnul : '\x00' ∉ p.file.data) :
    ∃ q : Query,
      (Files.run env p db).code = 0 ∧
      (Files.run env p db).log.events =
        Event.newGridFS env.dbName env.coll :: Event.list q ::
          ((db (Files.filesNS env)).filter q.matches).map Files.row ∧
      (p.file = "" → q = []) ∧
      (p.file ≠ "" → q = [("filename", Cond.regex ("^" ++ QuoteMeta p.file))]) ∧
      (∀ s : String, Pcre.search ("^" ++ QuoteMeta p.file) s =
        some (decide (p.file.data <+: s.data))) ∧
      (∀ doc, q.matches doc = true ↔
        (p.file = "" ∨ ∃ s, doc.get "filename" = Elem.str s ∧ p.file.data <+: s.data)) := by
  have hs := fun s => Pcre.search_quoted p.file s hnul
  rw [Files.run_list env p db hcmd]
  by_cases hf : p.file = ""
  · refine ⟨[], rfl, ?_, fun _ => rfl, fun h => absurd hf h, hs, ?_⟩
    · simp only [Log.events, List.map_append, hf, Files.display_events]
      simp [stamp]
      rfl
    · intro doc
      simp [hf, Query.matches]
  · refine ⟨[("filename", Cond.regex ("^" ++ QuoteMeta p.file))], rfl, ?_,
      fun h => absurd h hf, fun _ => rfl, hs, ?_⟩
    · simp only [Log.events, List.map_append, Files.display_events]
      simp [stamp, string_length_eq_zero, hf]
      rfl
    · intro doc
      rw [Files.matches_regex]
      simp only [hf, false_or]
      constructor
      · rintro ⟨s, h1, h2⟩
        rw [hs s] at h2
        exact ⟨s, h1, by simpa using h2⟩
      · rintro ⟨s, h1, h2⟩
        exact ⟨s, h1, by rw [hs s]; simpa using h2⟩

/-- C8: `search` is pattern-capable and unquoted. For a non-empty needle `n`, `search` returns
0 and passes to `GridFS::list` the query made of the single regex condition with pattern `n`
itself on the field `filename`, and prints the rows that query selects; `list` with the same
string builds the pattern `^` followed by `QuoteMeta(n)`; the two patterns agree up to the
leading `^` exactly when `QuoteMeta` leaves `n` unchanged, which is not so for every input. -/
theorem Files.search_query_unquoted (env : Env) (p : Params) (db : DB)
    (hcmd : p.command = "search") (hfile : p.file ≠ "") :
    (Files.run env p db).code = 0 ∧
    (Files.run env p db).log.events =
      Event.newGridFS env.dbName env.coll :: Event.list [("filename", Cond.regex p.file)] ::
        ((db (Files.filesNS env)).filter
          (Query.matches [("filename", Cond.regex p.file)])).map Files.row ∧
    (∃ rows, (Files.run env { p with command := "list" } db).log.events =
      Event.newGridFS env.dbName env.coll ::
        Event.list [("filename", Cond.regex ("^" ++ QuoteMeta p.file))] :: rows) ∧
    ("^" ++ QuoteMeta p.file = "^" ++ p.file ↔ QuoteMeta p.file = p.file) ∧
    (∃ n : String, n ≠ "" ∧ "^" ++ QuoteMeta n ≠ "^" ++ n) := by
  refine ⟨?_, ?_, ?_, Files.append_left_cancel _ _ _, ⟨"a.b*c", by decide, by decide⟩⟩
  · rw [Files.run_search env p db hcmd hfile]
  · rw [Files.run_search env p db hcmd hfile]
    simp only [Log.events, List.map_append, Files.display_events]
    simp [stamp]
    rfl
  · rw [Files.run_list env { p with command := "list" } db rfl]
    refine ⟨((db (Files.filesNS env)).filter
      (Query.matches [("filename", Cond.regex ("^" ++ QuoteMeta p.file))])).map Files.row, ?_⟩
    simp only [Log.events, List.map_append, Files.display_events]
    simp [stamp, string_length_eq_zero, hfile]
    rfl

/-- C4: not-found on `get`. For a non-empty file name, `get` returns -2 exactly when the
`GridFile` that `findFile` yields does not exist; then the actions are the construction of the
`GridFS`, the lookup and the error line, so `GridFile::write` is not called and no line
`done write to` is printed. When the file exists, `get` calls `write` on it with the
destination (the value of `--local`, by default the name of the file), prints
`done write to` unless the destination is `-`, and returns 0. The store is not modified. -/
theorem Files.get_not_found (env : Env) (p : Params) (db : DB)
    (hcmd : p.command = "get") (hfile : p.file ≠ "") :
    ((Files.run env p db).code = -2 ↔
      ((Files.grid env).findFile db p.file).fileExists = false) ∧
    (((Files.grid env).findFile db p.file).fileExists = false →
      (Files.run env p db).log = stamp db
        [Event.newGridFS env.dbName env.coll, Event.findFile p.file,
          Event.print OStream.cerr "ERROR: file not found\n"] ∧
      (∀ f dest, Event.write f dest ∉ (Files.run env p db).log.events) ∧
      (∀ t, Event.print OStream.cout t ∉ (Files.run env p db).log.events)) ∧
    (∀ f, (Files.grid env).findFile db p.file = some f →
      (Files.run env p db).code = 0 ∧
      (Files.run env p db).log.events =
        [Event.newGridFS env.dbName env.coll, Event.findFile p.file,
          Event.write f (p.localPath.getD (f.get "filename").strValue)] ++
        (if p.localPath.getD (f.get "filename").strValue ≠ "-" then
          [Event.print OStream.cout
            ("done write to: " ++ p.localPath.getD (f.get "filename").strValue ++ "\n")]
         else [])) ∧
    (Files.run env p db).final = db := by
  cases hx : ((Files.grid env).findFile db p.file).fileExists
  · have hr := Files.run_get_missing env p db hcmd hfile hx
    rw [hr]
    refine ⟨by simp, fun _ => ⟨rfl, ?_, ?_⟩, ?_, rfl⟩
    · intro f dest
      simp [Log.events, stamp]
    · intro t
      simp [Log.events, stamp]
    · intro f hf
      rw [hf] at hx
      simp [GridFile.fileExists] at hx
  · have hr := Files.run_get_found env p db hcmd hfile hx
    rw [hr]
    refine ⟨by simp, fun h => by simp at h, ?_, rfl⟩
    intro f hf
    refine ⟨rfl, ?_⟩
    rw [hf]
    simp only [Log.events, stamp, GridFile.getFilename, Option.getD_some, List.map_append,
      List.map_cons, List.map_nil, List.map_map]
    split <;> simp

/-- C5: missing arguments. With an empty command `run` returns -1 after the error line and the
help; with a command other than `list` and an empty name argument `run` returns -1 after
constructing the `GridFS`, the error line and the help. In both cases no action is a call
into the store (no listing, query, lookup, store, insertion or removal) and the store stays as
it was in every state, so `delete` with an empty name deletes nothing. `list` with an empty
name argument returns 0. -/
theorem Files.missing_argument (env : Env) (p : Params) (db : DB) :
    (p.command = "" →
      (Files.run env p db).log.events =
        Event.print OStream.cerr "ERROR: need command\n\n" :: Files.printHelp OStream.cout) ∧
    (p.command ≠ "" → p.command ≠ "list" → p.file = "" →
      (Files.run env p db).log.events =
        Event.newGridFS env.dbName env.coll ::
          Event.print OStream.cerr "ERROR: need a filename\n\n" ::
          Files.printHelp OStream.cout) ∧
    ((p.command = "" ∨ (p.command ≠ "list" ∧ p.file = "")) →
      (Files.run env p db).code = -1 ∧ (Files.run env p db).final = db ∧
      (∀ st ∈ (Files.run env p db).log.states, st = db) ∧
      ∀ e ∈ (Files.run env p db).log.events, e.isStoreCall = false) ∧
    (p.command = "list" → p.file = "" → (Files.run env p db).code = 0) := by
  have h1 : p.command = "" → Files.run env p db = _ := Files.run_no_command env p db
  have h2 : p.command ≠ "" → p.command ≠ "list" → p.file = "" → Files.run env p db = _ :=
    Files.run_no_file env p db
  have e1 : p.command = "" → (Files.run env p db).log.events =
      Event.print OStream.cerr "ERROR: need command\n\n" :: Files.printHelp OStream.cout := by
    intro h
    rw [h1 h]
    simp [Log.events, stamp, Function.comp_def]
  have e2 : p.command ≠ "" → p.command ≠ "list" → p.file = "" →
      (Files.run env p db).log.events =
        Event.newGridFS env.dbName env.coll ::
          Event.print OStream.cerr "ERROR: need a filename\n\n" ::
          Files.printHelp OStream.cout := by
    intro ha hb hc
    rw [h2 ha hb hc]
    simp [Log.events, stamp, Function.comp_def]
  refine ⟨e1, e2, ?_, ?_⟩
  · intro h
    by_cases h0 : p.command = ""
    · rw [e1 h0, h1 h0]
      refine ⟨rfl, rfl, ?_, ?_⟩
      · intro st hst
        simp only [Log.states, stamp, List.map_map, List.mem_map, Function.comp_apply] at hst
        obtain ⟨_, _, rfl⟩ := hst
        rfl
      · simp [Files.printHelp, Files.printExtraHelp, Event.isStoreCall]
    · rcases h with h | ⟨hl, hf⟩
      · exact absurd h h0
      · rw [e2 h0 hl hf, h2 h0 hl hf]
        refine ⟨rfl, rfl, ?_, ?_⟩
        · intro st hst
          simp only [Log.states, stamp, List.map_append, List.map_map, List.mem_append,
            List.mem_map, Function.comp_apply] at hst
          rcases hst with ⟨_, _, rfl⟩ | ⟨_, _, rfl⟩ <;> rfl
        · simp [Files.printHelp, Files.printExtraHelp, Event.isStoreCall]
  · intro hl _
    rw [Files.run_list env p db hl]

/-- C7, as stated, fails: run without a command, the tool does not print the usage text to
the error stream. -/
theorem Files.usage_not_on_error_stream :
    ¬ ((∀ e ∈ Files.printExtraHelp OStream.cerr,
          e ∈ (Files.run sampleEnv sampleNoCommand sampleDB).log.events) ∧
        (Files.run sampleEnv sampleNoCommand sampleDB).code ≠ 0) := by
  decide

/-- C7, amended: when the command is empty, or the name argument is empty for a command other
than `list`, or the command is unknown, `run` returns -1; the only output on the error stream
is one error line; the usage text, the one of `printExtraHelp` followed by the options, is
printed to standard output right after it. -/
theorem Files.usage_on_standard_output (env : Env) (p : Params) (db : DB)
    (h : p.command = "" ∨ (p.command ≠ "list" ∧ p.file = "") ∨
      (p.command ≠ "list" ∧ p.command ≠ "search" ∧ p.command ≠ "get" ∧ p.command ≠ "put" ∧
        p.command ≠ "delete")) :
    (Files.run env p db).code = -1 ∧ (Files.run env p db).code ≠ 0 ∧
    ∃ pre msg,
      (msg = "ERROR: need command\n\n" ∨ msg = "ERROR: need a filename\n\n" ∨
        msg = "ERROR: unknown command '" ++ p.command ++ "'\n\n") ∧
      (pre = [] ∨ pre = [Event.newGridFS env.dbName env.coll]) ∧
      (Files.run env p db).log.events =
        pre ++ Event.print OStream.cerr msg :: Files.printHelp OStream.cout ∧
      (∀ e ∈ Files.printExtraHelp OStream.cout, e ∈ (Files.run env p db).log.events) ∧
      (∀ t, Event.print OStream.cerr t ∈ (Files.run env p db).log.events → t = msg) ∧
      Event.printOptions OStream.cerr ∉ (Files.run env p db).log.events ∧
      ¬ (∀ e ∈ Files.printExtraHelp OStream.cerr, e ∈ (Files.run env p db).log.events) := by
  have key : ∃ pre msg,
      (msg = "ERROR: need command\n\n" ∨ msg = "ERROR: need a filename\n\n" ∨
        msg = "ERROR: unknown command '" ++ p.command ++ "'\n\n") ∧
      (pre = [] ∨ pre = [Event.newGridFS env.dbName env.coll]) ∧
      (Files.run env p db).code = -1 ∧
      (Files.run env p db).log.events =
        pre ++ Event.print OStream.cerr msg :: Files.printHelp OStream.cout := by
    by_cases h0 : p.command = ""
    · refine ⟨[], _, Or.inl rfl, Or.inl rfl, ?_, ?_⟩ <;>
        rw [Files.run_no_command env p db h0]
      simp [Log.events, stamp, Function.comp_def]
    · by_cases hl : p.command = "list"
      · rcases h with h | h | h
        · exact absurd h h0
        · exact absurd hl h.1
        · exact absurd hl h.1
      · by_cases hf : p.file = ""
        · refine ⟨[Event.newGridFS env.dbName env.coll], _, Or.inr (Or.inl rfl), Or.inr rfl,
            ?_, ?_⟩ <;> rw [Files.run_no_file env p db h0 hl hf]
          simp [Log.events, stamp, Function.comp_def]
        · rcases h with h | h | h
          · exact absurd h h0
          · exact absurd h.2 hf
          · refine ⟨[Event.newGridFS env.dbName env.coll], _, Or.inr (Or.inr rfl), Or.inr rfl,
              ?_, ?_⟩ <;>
              rw [Files.run_unknown env p db h0 h.1 h.2.1 h.2.2.1 h.2.2.2.1 h.2.2.2.2 hf]
            simp [Log.events, stamp, Function.comp_def]
  obtain ⟨pre, msg, hmsg, hpre, hcode, hev⟩ := key
  have hcerr : ∀ t, Event.print OStream.cerr t ∈ (Files.run env p db).log.events → t = msg := by
    intro t ht
    rw [hev] at ht
    rcases hpre with rfl | rfl <;>
      simpa [Files.printHelp, Files.printExtraHelp] using ht
  refine ⟨hcode, by rw [hcode]; decide, pre, msg, hmsg, hpre, hev, ?_, hcerr, ?_, ?_⟩
  · intro e he
    rw [hev]
    simp only [List.mem_append, List.mem_cons, Files.printHelp]
    exact Or.inr (Or.inr (Or.inl he))
  · rw [hev]
    rcases hpre with rfl | rfl <;> simp [Files.printHelp, Files.printExtraHelp]
  · intro hall
    have ha := hcerr _ (hall (Event.print OStream.cerr "command:\n")
      (by simp [Files.printExtraHelp]))
    have hb := hcerr _ (hall (Event.print OStream.cerr "  one of (list|search|put|get)\n")
      (by simp [Files.printExtraHelp]))
    rw [← hb] at ha
    exact absurd ha (by decide)

theorem Heap.store_same {N D P : Type} (h : Heap N D P) (a : Nat) (r : UpdateRequest N D P) :
    (h.store a r) a = r := by
  simp [Heap.store]

theorem Heap.store_store {N D P : Type} (h : Heap N D P) (a : Nat)
    (r1 r2 : UpdateRequest N D P) : (h.store a r1).store a r2 = h.store a r2 := by
  funext x
  by_cases hx : x = a <;> simp [Heap.store, hx]

/-- C10: the setters of `UpdateRequest`. Each of `query`, `updates`, `god`, `upsert`, `multi`,
`updateOpLog`, `fromMigration` and `fromReplication` returns the request it was called on;
after it the matching getter returns the value given and every other getter returns what it
returned before. Setters of different members commute, a setter called twice keeps the last
value, and a request just constructed has its six flags false, both documents empty and the
namespace it was given. -/
theorem UpdateRequest.setters_frame {N D P : Type} (h : Heap N D P) (this : Nat)
    (q q2 u u2 : BSONObj) (b c : Bool) (nsString : N) (debug : D) (policy : P) :
    ((UpdateRequest.query h this q).2 = this ∧
      UpdateRequest.getQuery (UpdateRequest.query h this q).1 this = q ∧
      UpdateRequest.getNamespaceString (UpdateRequest.query h this q).1 this =
          UpdateRequest.getNamespaceString h this ∧
      UpdateRequest.getDebug (UpdateRequest.query h this q).1 this = UpdateRequest.getDebug h this ∧
      UpdateRequest.getQueryPlanSelectionPolicy (UpdateRequest.query h this q).1 this =
          UpdateRequest.getQueryPlanSelectionPolicy h this ∧
      UpdateRequest.getUpdates (UpdateRequest.query h this q).1 this =
          UpdateRequest.getUpdates h this ∧
      UpdateRequest.isGod (UpdateRequest.query h this q).1 this = UpdateRequest.isGod h this ∧
      UpdateRequest.isUpsert (UpdateRequest.query h this q).1 this = UpdateRequest.isUpsert h this ∧
      UpdateRequest.isMulti (UpdateRequest.query h this q).1 this = UpdateRequest.isMulti h this ∧
      UpdateRequest.shouldUpdateOpLog (UpdateRequest.query h this q).1 this =
          UpdateRequest.shouldUpdateOpLog h this ∧
      UpdateRequest.isFromMigration (UpdateRequest.query h this q).1 this =
          UpdateRequest.isFromMigration h this ∧
      UpdateRequest.isFromReplication (UpdateRequest.query h this q).1 this =
          UpdateRequest.isFromReplication h this) ∧
    ((UpdateRequest.updates h this u).2 = this ∧
      UpdateRequest.getUpdates (UpdateRequest.updates h this u).1 this = u ∧
      UpdateRequest.getNamespaceString (UpdateRequest.updates h this u).1 this =
          UpdateRequest.getNamespaceString h this ∧
      UpdateRequest.getDebug (UpdateRequest.updates h this u).1 this =
          UpdateRequest.getDebug h this ∧
      UpdateRequest.getQueryPlanSelectionPolicy (UpdateRequest.updates h this u).1 this =
          UpdateRequest.getQueryPlanSelectionPolicy h this ∧
      UpdateRequest.getQuery (UpdateRequest.updates h this u).1 this =
          UpdateRequest.getQuery h this ∧
      UpdateRequest.isGod (UpdateRequest.updates h this u).1 this = UpdateRequest.isGod h this ∧
      UpdateRequest.isUpsert (UpdateRequest.updates h this u).1 this =
          UpdateRequest.isUpsert h this ∧
      UpdateRequest.isMulti (UpdateRequest.updates h this u).1 this = UpdateRequest.isMulti h this ∧
      UpdateRequest.shouldUpdateOpLog (UpdateRequest.updates h this u).1 this =
          UpdateRequest.shouldUpdateOpLog h this ∧
      UpdateRequest.isFromMigration (UpdateRequest.updates h this u).1 this =
          UpdateRequest.isFromMigration h this ∧
      UpdateRequest.isFromReplication (UpdateRequest.updates h this u).1 this =
          UpdateRequest.isFromReplication h this) ∧
    ((UpdateRequest.god h this b).2 = this ∧
      UpdateRequest.isGod (UpdateRequest.god h this b).1 this = b ∧
      UpdateRequest.getNamespaceString (UpdateRequest.god h this b).1 this =
          UpdateRequest.getNamespaceString h this ∧
      UpdateRequest.getDebug (UpdateRequest.god h this b).1 this = UpdateRequest.getDebug h this ∧
      UpdateRequest.getQueryPlanSelectionPolicy (UpdateRequest.god h this b).1 this =
          UpdateRequest.getQueryPlanSelectionPolicy h this ∧
      UpdateRequest.getQuery (UpdateRequest.god h this b).1 this = UpdateRequest.getQuery h this ∧
      UpdateRequest.getUpdates (UpdateRequest.god h this b).1 this =
          UpdateRequest.getUpdates h this ∧
      UpdateRequest.isUpsert (UpdateRequest.god h this b).1 this = UpdateRequest.isUpsert h this ∧
      UpdateRequest.isMulti (UpdateRequest.god h this b).1 this = UpdateRequest.isMulti h this ∧
      UpdateRequest.shouldUpdateOpLog (UpdateRequest.god h this b).1 this =
          UpdateRequest.shouldUpdateOpLog h this ∧
      UpdateRequest.isFromMigration (UpdateRequest.god h this b).1 this =
          UpdateRequest.isFromMigration h this ∧
      UpdateRequest.isFromReplication (UpdateRequest.god h this b).1 this =
          UpdateRequest.isFromReplication h this) ∧
    ((UpdateRequest.upsert h this b).2 = this ∧
      UpdateRequest.isUpsert (UpdateRequest.upsert h this b).1 this = b ∧
      UpdateRequest.getNamespaceString (UpdateRequest.upsert h this b).1 this =
          UpdateRequest.getNamespaceString h this ∧
      UpdateRequest.getDebug (UpdateRequest.upsert h this b).1 this =
          UpdateRequest.getDebug h this ∧
      UpdateRequest.getQueryPlanSelectionPolicy (UpdateRequest.upsert h this b).1 this =
          UpdateRequest.getQueryPlanSelectionPolicy h this ∧
      UpdateRequest.getQuery (UpdateRequest.upsert h this b).1 this =
          UpdateRequest.getQuery h this ∧
      UpdateRequest.getUpdates (UpdateRequest.upsert h this b).1 this =
          UpdateRequest.getUpdates h this ∧
      UpdateRequest.isGod (UpdateRequest.upsert h this b).1 this = UpdateRequest.isGod h this ∧
      UpdateRequest.isMulti (UpdateRequest.upsert h this b).1 this = UpdateRequest.isMulti h this ∧
      UpdateRequest.shouldUpdateOpLog (UpdateRequest.upsert h this b).1 this =
          UpdateRequest.shouldUpdateOpLog h this ∧
      UpdateRequest.isFromMigration (UpdateRequest.upsert h this b).1 this =
          UpdateRequest.isFromMigration h this ∧
      UpdateRequest.isFromReplication (UpdateRequest.upsert h this b).1 this =
          UpdateRequest.isFromReplication h this) ∧
    ((UpdateRequest.multi h this b).2 = this ∧
      UpdateRequest.isMulti (UpdateRequest.multi h this b).1 this = b ∧
      UpdateRequest.getNamespaceString (UpdateRequest.multi h this b).1 this =
          UpdateRequest.getNamespaceString h this ∧
      UpdateRequest.getDebug (UpdateRequest.multi h this b).1 this = UpdateRequest.getDebug h this ∧
      UpdateRequest.getQueryPlanSelectionPolicy (UpdateRequest.multi h this b).1 this =
          UpdateRequest.getQueryPlanSelectionPolicy h this ∧
      UpdateRequest.getQuery (UpdateRequest.multi h this b).1 this = UpdateRequest.getQuery h this ∧
      UpdateRequest.getUpdates (UpdateRequest.multi h this b).1 this =
          UpdateRequest.getUpdates h this ∧
      UpdateRequest.isGod (UpdateRequest.multi h this b).1 this = UpdateRequest.isGod h this ∧
      UpdateRequest.isUpsert (UpdateRequest.multi h this b).1 this = UpdateRequest.isUpsert h this ∧
      UpdateRequest.shouldUpdateOpLog (UpdateRequest.multi h this b).1 this =
          UpdateRequest.shouldUpdateOpLog h this ∧
      UpdateRequest.isFromMigration (UpdateRequest.multi h this b).1 this =
          UpdateRequest.isFromMigration h this ∧
      UpdateRequest.isFromReplication (UpdateRequest.multi h this b).1 this =
          UpdateRequest.isFromReplication h this) ∧
    ((UpdateRequest.updateOpLog h this b).2 = this ∧
      UpdateRequest.shouldUpdateOpLog (UpdateRequest.updateOpLog h this b).1 this = b ∧
      UpdateRequest.getNamespaceString (UpdateRequest.updateOpLog h this b).1 this =
          UpdateRequest.getNamespaceString h this ∧
      UpdateRequest.getDebug (UpdateRequest.updateOpLog h this b).1 this =
          UpdateRequest.getDebug h this ∧
      UpdateRequest.getQueryPlanSelectionPolicy (UpdateRequest.updateOpLog h this b).1 this =
          UpdateRequest.getQueryPlanSelectionPolicy h this ∧
      UpdateRequest.getQuery (UpdateRequest.updateOpLog h this b).1 this =
          UpdateRequest.getQuery h this ∧
      UpdateRequest.getUpdates (UpdateRequest.updateOpLog h this b).1 this =
          UpdateRequest.getUpdates h this ∧
      UpdateRequest.isGod (UpdateRequest.updateOpLog h this b).1 this = UpdateRequest.isGod h this ∧
      UpdateRequest.isUpsert (UpdateRequest.updateOpLog h this b).1 this =
          UpdateRequest.isUpsert h this ∧
      UpdateRequest.isMulti (UpdateRequest.updateOpLog h this b).1 this =
          UpdateRequest.isMulti h this ∧
      UpdateRequest.isFromMigration (UpdateRequest.updateOpLog h this b).1 this =
          UpdateRequest.isFromMigration h this ∧
      UpdateRequest.isFromReplication (UpdateRequest.updateOpLog h this b).1 this =
          UpdateRequest.isFromReplication h this) ∧
    ((UpdateRequest.fromMigration h this b).2 = this ∧
      UpdateRequest.isFromMigration (UpdateRequest.fromMigration h this b).1 this = b ∧
      UpdateRequest.getNamespaceString (UpdateRequest.fromMigration h this b).1 this =
          UpdateRequest.getNamespaceString h this ∧
      UpdateRequest.getDebug (UpdateRequest.fromMigration h this b).1 this =
          UpdateRequest.getDebug h this ∧
      UpdateRequest.getQueryPlanSelectionPolicy (UpdateRequest.fromMigration h this b).1 this =
          UpdateRequest.getQueryPlanSelectionPolicy h this ∧
      UpdateRequest.getQuery (UpdateRequest.fromMigration h this b).1 this =
          UpdateRequest.getQuery h this ∧
      UpdateRequest.getUpdates (UpdateRequest.fromMigration h this b).1 this =
          UpdateRequest.getUpdates h this ∧
      UpdateRequest.isGod (UpdateRequest.fromMigration h this b).1 this =
          UpdateRequest.isGod h this ∧
      UpdateRequest.isUpsert (UpdateRequest.fromMigration h this b).1 this =
          UpdateRequest.isUpsert h this ∧
      UpdateRequest.isMulti (UpdateRequest.fromMigration h this b).1 this =
          UpdateRequest.isMulti h this ∧
      UpdateRequest.shouldUpdateOpLog (UpdateRequest.fromMigration h this b).1 this =
          UpdateRequest.shouldUpdateOpLog h this ∧
      UpdateRequest.isFromReplication (UpdateRequest.fromMigration h this b).1 this =
          UpdateRequest.isFromReplication h this) ∧
    ((UpdateRequest.fromReplication h this b).2 = this ∧
      UpdateRequest.isFromReplication (UpdateRequest.fromReplication h this b).1 this = b ∧
      UpdateRequest.getNamespaceString (UpdateRequest.fromReplication h this b).1 this =
          UpdateRequest.getNamespaceString h this ∧
      UpdateRequest.getDebug (UpdateRequest.fromReplication h this b).1 this =
          UpdateRequest.getDebug h this ∧
      UpdateRequest.getQueryPlanSelectionPolicy (UpdateRequest.fromReplication h this b).1 this =
          UpdateRequest.getQueryPlanSelectionPolicy h this ∧
      UpdateRequest.getQuery (UpdateRequest.fromReplication h this b).1 this =
          UpdateRequest.getQuery h this ∧
      UpdateRequest.getUpdates (UpdateRequest.fromReplication h this b).1 this =
          UpdateRequest.getUpdates h this ∧
      UpdateRequest.isGod (UpdateRequest.fromReplication h this b).1 this =
          UpdateRequest.isGod h this ∧
      UpdateRequest.isUpsert (UpdateRequest.fromReplication h this b).1 this =
          UpdateRequest.isUpsert h this ∧
      UpdateRequest.isMulti (UpdateRequest.fromReplication h this b).1 this =
          UpdateRequest.isMulti h this ∧
      UpdateRequest.shouldUpdateOpLog (UpdateRequest.fromReplication h this b).1 this =
          UpdateRequest.shouldUpdateOpLog h this ∧
      UpdateRequest.isFromMigration (UpdateRequest.fromReplication h this b).1 this =
          UpdateRequest.isFromMigration h this) ∧
    ((UpdateRequest.updates (UpdateRequest.query h this q).1 this u2).1 =
        (UpdateRequest.query (UpdateRequest.updates h this u2).1 this q).1 ∧
      (UpdateRequest.god (UpdateRequest.query h this q).1 this c).1 =
          (UpdateRequest.query (UpdateRequest.god h this c).1 this q).1 ∧
      (UpdateRequest.upsert (UpdateRequest.query h this q).1 this c).1 =
          (UpdateRequest.query (UpdateRequest.upsert h this c).1 this q).1 ∧
      (UpdateRequest.multi (UpdateRequest.query h this q).1 this c).1 =
          (UpdateRequest.query (UpdateRequest.multi h this c).1 this q).1 ∧
      (UpdateRequest.updateOpLog (UpdateRequest.query h this q).1 this c).1 =
          (UpdateRequest.query (UpdateRequest.updateOpLog h this c).1 this q).1 ∧
      (UpdateRequest.fromMigration (UpdateRequest.query h this q).1 this c).1 =
          (UpdateRequest.query (UpdateRequest.fromMigration h this c).1 this q).1 ∧
      (UpdateRequest.fromReplication (UpdateRequest.query h this q).1 this c).1 =
          (UpdateRequest.query (UpdateRequest.fromReplication h this c).1 this q).1 ∧
      (UpdateRequest.god (UpdateRequest.updates h this u).1 this c).1 =
          (UpdateRequest.updates (UpdateRequest.god h this c).1 this u).1 ∧
      (UpdateRequest.upsert (UpdateRequest.updates h this u).1 this c).1 =
          (UpdateRequest.updates (UpdateRequest.upsert h this c).1 this u).1 ∧
      (UpdateRequest.multi (UpdateRequest.updates h this u).1 this c).1 =
          (UpdateRequest.updates (UpdateRequest.multi h this c).1 this u).1 ∧
      (UpdateRequest.updateOpLog (UpdateRequest.updates h this u).1 this c).1 =
          (UpdateRequest.updates (UpdateRequest.updateOpLog h this c).1 this u).1 ∧
      (UpdateRequest.fromMigration (UpdateRequest.updates h this u).1 this c).1 =
          (UpdateRequest.updates (UpdateRequest.fromMigration h this c).1 this u).1 ∧
      (UpdateRequest.fromReplication (UpdateRequest.updates h this u).1 this c).1 =
          (UpdateRequest.updates (UpdateRequest.fromReplication h this c).1 this u).1 ∧
      (UpdateRequest.upsert (UpdateRequest.god h this b).1 this c).1 =
          (UpdateRequest.god (UpdateRequest.upsert h this c).1 this b).1 ∧
      (UpdateRequest.multi (UpdateRequest.god h this b).1 this c).1 =
          (UpdateRequest.god (UpdateRequest.multi h this c).1 this b).1 ∧
      (UpdateRequest.updateOpLog (UpdateRequest.god h this b).1 this c).1 =
          (UpdateRequest.god (UpdateRequest.updateOpLog h this c).1 this b).1 ∧
      (UpdateRequest.fromMigration (UpdateRequest.god h this b).1 this c).1 =
          (UpdateRequest.god (UpdateRequest.fromMigration h this c).1 this b).1 ∧
      (UpdateRequest.fromReplication (UpdateRequest.god h this b).1 this c).1 =
          (UpdateRequest.god (UpdateRequest.fromReplication h this c).1 this b).1 ∧
      (UpdateRequest.multi (UpdateRequest.upsert h this b).1 this c).1 =
          (UpdateRequest.upsert (UpdateRequest.multi h this c).1 this b).1 ∧
      (UpdateRequest.updateOpLog (UpdateRequest.upsert h this b).1 this c).1 =
          (UpdateRequest.upsert (UpdateRequest.updateOpLog h this c).1 this b).1 ∧
      (UpdateRequest.fromMigration (UpdateRequest.upsert h this b).1 this c).1 =
          (UpdateRequest.upsert (UpdateRequest.fromMigration h this c).1 this b).1 ∧
      (UpdateRequest.fromReplication (UpdateRequest.upsert h this b).1 this c).1 =
          (UpdateRequest.upsert (UpdateRequest.fromReplication h this c).1 this b).1 ∧
      (UpdateRequest.updateOpLog (UpdateRequest.multi h this b).1 this c).1 =
          (UpdateRequest.multi (UpdateRequest.updateOpLog h this c).1 this b).1 ∧
      (UpdateRequest.fromMigration (UpdateRequest.multi h this b).1 this c).1 =
          (UpdateRequest.multi (UpdateRequest.fromMigration h this c).1 this b).1 ∧
      (UpdateRequest.fromReplication (UpdateRequest.multi h this b).1 this c).1 =
          (UpdateRequest.multi (UpdateRequest.fromReplication h this c).1 this b).1 ∧
      (UpdateRequest.fromMigration (UpdateRequest.updateOpLog h this b).1 this c).1 =
          (UpdateRequest.updateOpLog (UpdateRequest.fromMigration h this c).1 this b).1 ∧
      (UpdateRequest.fromReplication (UpdateRequest.updateOpLog h this b).1 this c).1 =
          (UpdateRequest.updateOpLog (UpdateRequest.fromReplication h this c).1 this b).1 ∧
      (UpdateRequest.fromReplication (UpdateRequest.fromMigration h this b).1 this c).1 =
          (UpdateRequest.fromMigration (UpdateRequest.fromReplication h this c).1 this b).1) ∧
    ((UpdateRequest.query (UpdateRequest.query h this q).1 this q2).1 =
        (UpdateRequest.query h this q2).1 ∧
      (UpdateRequest.updates (UpdateRequest.updates h this u).1 this u2).1 =
          (UpdateRequest.updates h this u2).1 ∧
      (UpdateRequest.god (UpdateRequest.god h this b).1 this c).1 = (UpdateRequest.god h this c).1 ∧
      (UpdateRequest.upsert (UpdateRequest.upsert h this b).1 this c).1 =
          (UpdateRequest.upsert h this c).1 ∧
      (UpdateRequest.multi (UpdateRequest.multi h this b).1 this c).1 =
          (UpdateRequest.multi h this c).1 ∧
      (UpdateRequest.updateOpLog (UpdateRequest.updateOpLog h this b).1 this c).1 =
          (UpdateRequest.updateOpLog h this c).1 ∧
      (UpdateRequest.fromMigration (UpdateRequest.fromMigration h this b).1 this c).1 =
          (UpdateRequest.fromMigration h this c).1 ∧
      (UpdateRequest.fromReplication (UpdateRequest.fromReplication h this b).1 this c).1 =
          (UpdateRequest.fromReplication h this c).1) ∧
    (UpdateRequest.isGod (h.store this (UpdateRequest.new nsString debug policy)) this = false ∧
      UpdateRequest.isUpsert (h.store this (UpdateRequest.new nsString debug policy)) this = false ∧
      UpdateRequest.isMulti (h.store this (UpdateRequest.new nsString debug policy)) this = false ∧
      UpdateRequest.shouldUpdateOpLog (h.store this (UpdateRequest.new nsString debug policy)) this = false ∧
      UpdateRequest.isFromMigration (h.store this (UpdateRequest.new nsString debug policy)) this =
          false ∧
      UpdateRequest.isFromReplication (h.store this (UpdateRequest.new nsString debug policy)) this = false ∧
      UpdateRequest.getQuery (h.store this (UpdateRequest.new nsString debug policy)) this = [] ∧
      UpdateRequest.getUpdates (h.store this (UpdateRequest.new nsString debug policy)) this = [] ∧
      UpdateRequest.getNamespaceString (h.store this (UpdateRequest.new nsString debug policy)) this = nsString) := by
  simp only [UpdateRequest.query, UpdateRequest.updates, UpdateRequest.god,
    UpdateRequest.upsert, UpdateRequest.multi, UpdateRequest.updateOpLog,
    UpdateRequest.fromMigration, UpdateRequest.fromReplication,
    UpdateRequest.getNamespaceString, UpdateRequest.getDebug,
    UpdateRequest.getQueryPlanSelectionPolicy, UpdateRequest.getQuery,
    UpdateRequest.getUpdates, UpdateRequest.isGod, UpdateRequest.isUpsert,
    UpdateRequest.isMulti, UpdateRequest.shouldUpdateOpLog, UpdateRequest.isFromMigration,
    UpdateRequest.isFromReplication, UpdateRequest.new, Heap.store_same, Heap.store_store]
  simp

/-! The properties on sample runs -/

/-- C1 on `put x --chunk-size -1`: the run returns -3 and leaves the store as it was. -/
theorem Files.put_chunk_size_validation_witness :
    (16 * 1024 ≤ sampleEnv.bsonObjMaxUserSize ∧ sampleBadChunk.command = "put" ∧
      sampleBadChunk.file ≠ "" ∧ sampleBadChunk.chunkSize = some (-1)) ∧
    (Files.run sampleEnv sampleBadChunk sampleDB).code = -3 ∧
    (Files.run sampleEnv sampleBadChunk sampleDB).final = sampleDB :=
  ⟨⟨by decide, rfl, by decide, rfl⟩,
    ((Files.put_chunk_size_validation sampleEnv sampleBadChunk sampleDB (-1) (by decide) rfl
      (by decide) rfl).1 (Or.inl (by decide))).1,
    ((Files.put_chunk_size_validation sampleEnv sampleBadChunk sampleDB (-1) (by decide) rfl
      (by decide) rfl).1 (Or.inl (by decide))).2.1⟩

/-- C2 on `put x --replace` over a store with two objects named `x`. -/
theorem Files.put_replace_leaves_newest_witness :
    (samplePut.command = "put" ∧ samplePut.file ≠ "" ∧ samplePut.replace = true ∧
      (Files.run sampleEnv samplePut sampleDB).code = 0 ∧
      ∀ d ∈ sampleDB (Files.filesNS sampleEnv), d.get "_id" ≠ Elem.oid sampleEnv.freshOID) ∧
    ∃ size file,
      file = fileDoc sampleEnv sampleEnv.freshOID samplePut.file (samplePut.mimeType.getD "")
        size (sampleEnv.readLocal (samplePut.localPath.getD samplePut.file)) ∧
      Event.printObj "added file: " file ∈
        (Files.run sampleEnv samplePut sampleDB).log.events ∧
      ((Files.run sampleEnv samplePut sampleDB).final (Files.filesNS sampleEnv)).filter
        (fun d => d.get "filename" == Elem.str samplePut.file) = [file] :=
  ⟨⟨rfl, by decide, rfl, by decide, by decide⟩,
    Files.put_replace_leaves_newest sampleEnv samplePut sampleDB rfl (by decide) rfl
      (by decide) (by decide)⟩

/-- C3 on `list a.b*c`: the pattern built matches the name `a.b*c` and not `aXbbc`. -/
theorem Files.list_query_literal_witness :
    (sampleList.command = "list" ∧ '\x00' ∉ sampleList.file.data) ∧
    Pcre.search ("^" ++ QuoteMeta sampleList.file) "a.b*c" = some true ∧
    Pcre.search ("^" ++ QuoteMeta sampleList.file) "aXbbc" = some false :=
  ⟨⟨rfl, by decide⟩,
    (Files.list_query_literal sampleEnv sampleList sampleNames rfl (by decide)).elim
      (fun _ hq => (hq.2.2.2.2.1 "a.b*c").trans (by decide)),
    (Files.list_query_literal sampleEnv sampleList sampleNames rfl (by decide)).elim
      (fun _ hq => (hq.2.2.2.2.1 "aXbbc").trans (by decide))⟩

/-- C4 on `get nope`: the file is not found and the run returns -2. -/
theorem Files.get_not_found_witness :
    (sampleGet.command = "get" ∧ sampleGet.file ≠ "") ∧
    (Files.run sampleEnv sampleGet sampleDB).code = -2 :=
  ⟨⟨rfl, by decide⟩,
    (Files.get_not_found sampleEnv sampleGet sampleDB rfl (by decide)).1.2 (by decide)⟩

/-- C5 on `delete` without a name: the run returns -1 and the store is as it was. -/
theorem Files.missing_argument_witness :
    (sampleDelete.command ≠ "list" ∧ sampleDelete.file = "") ∧
    (Files.run sampleEnv sampleDelete sampleDB).code = -1 ∧
    (Files.run sampleEnv sampleDelete sampleDB).final = sampleDB :=
  ⟨⟨by decide, rfl⟩,
    ((Files.missing_argument sampleEnv sampleDelete sampleDB).2.2.1
      (Or.inr ⟨by decide, rfl⟩)).1,
    ((Files.missing_argument sampleEnv sampleDelete sampleDB).2.2.1
      (Or.inr ⟨by decide, rfl⟩)).2.1⟩

/-- C6 on `put x --replace` over a store with two objects named `x`: in every state of the run
`findFile x` finds an object. -/
theorem Files.put_replace_never_zero_witness :
    (samplePut.command = "put" ∧ samplePut.file ≠ "" ∧ samplePut.replace = true ∧
      ∃ d ∈ sampleDB (Files.filesNS sampleEnv), d.get "filename" = Elem.str samplePut.file) ∧
    ∀ st ∈ sampleDB :: (Files.run sampleEnv samplePut sampleDB).log.states,
      ((Files.grid sampleEnv).findFile st samplePut.file).fileExists = true :=
  ⟨⟨rfl, by decide, rfl, by decide⟩,
    ((Files.put_replace_never_zero sampleEnv samplePut sampleDB rfl (by decide) rfl).2.2.2.2
      (by decide)).1⟩

/-- C7, amended, on a run without a command: the run returns -1. -/
theorem Files.usage_on_standard_output_witness :
    sampleNoCommand.command = "" ∧
    (Files.run sampleEnv sampleNoCommand sampleDB).code = -1 :=
  ⟨rfl, (Files.usage_on_standard_output sampleEnv sampleNoCommand sampleDB (Or.inl rfl)).1⟩

/-- C8 on `search a.b*c`: the run returns 0 and lists with the pattern `a.b*c` itself. -/
theorem Files.search_query_unquoted_witness :
    (sampleSearch.command = "search" ∧ sampleSearch.file ≠ "") ∧
    (Files.run sampleEnv sampleSearch sampleNames).code = 0 ∧
    (Files.run sampleEnv sampleSearch sampleNames).log.events =
      Event.newGridFS sampleEnv.dbName sampleEnv.coll ::
        Event.list [("filename", Cond.regex sampleSearch.file)] ::
        ((sampleNames (Files.filesNS sampleEnv)).filter
          (Query.matches [("filename", Cond.regex sampleSearch.file)])).map Files.row :=
  ⟨⟨rfl, by decide⟩,
    (Files.search_query_unquoted sampleEnv sampleSearch sampleNames rfl (by decide)).1,
    (Files.search_query_unquoted sampleEnv sampleSearch sampleNames rfl (by decide)).2.1⟩

/-- C9 on `put x --replace` over a store with two objects named `x` and one named `y`. -/
theorem Files.put_deletion_frame_witness :
    (samplePut.command = "put" ∧ samplePut.file ≠ "" ∧
      (Files.run sampleEnv samplePut sampleDB).code = 0 ∧
      ((sampleDB (Files.filesNS sampleEnv)).map (fun d => d.get "_id")).Nodup) ∧
    ∃ size file chunks,
      file = fileDoc sampleEnv sampleEnv.freshOID samplePut.file (samplePut.mimeType.getD "") size
        (sampleEnv.readLocal (samplePut.localPath.getD samplePut.file)) ∧
      chunks = chunkDocs sampleEnv.freshOID size (sampleEnv.readLocal (samplePut.localPath.getD samplePut.file)) ∧
      (samplePut.replace = false →
        (∀ ns q, Event.remove ns q ∉ (Files.run sampleEnv samplePut sampleDB).log.events) ∧
        (Files.run sampleEnv samplePut sampleDB).final (Files.filesNS sampleEnv) =
            sampleDB (Files.filesNS sampleEnv) ++ [file] ∧
        (Files.run sampleEnv samplePut sampleDB).final (Files.chunksNS sampleEnv) =
          sampleDB (Files.chunksNS sampleEnv) ++ chunks) ∧
      (samplePut.replace = true →
        (∀ d ∈ sampleDB (Files.filesNS sampleEnv) ++ [file],
          d ∉ (Files.run sampleEnv samplePut sampleDB).final (Files.filesNS sampleEnv) →
          d.get "filename" = Elem.str samplePut.file ∧ d.get "_id" ≠ Elem.oid sampleEnv.freshOID ∧
          ∀ c ∈ (Files.run sampleEnv samplePut sampleDB).final (Files.chunksNS sampleEnv),
            c.get "files_id" ≠ d.get "_id") ∧
        (∀ d ∈ sampleDB (Files.filesNS sampleEnv), d.get "filename" ≠ Elem.str samplePut.file →
          d ∈ (Files.run sampleEnv samplePut sampleDB).final (Files.filesNS sampleEnv) ∧
          ∀ c ∈ sampleDB (Files.chunksNS sampleEnv), c.get "files_id" = d.get "_id" →
            c ∈ (Files.run sampleEnv samplePut sampleDB).final (Files.chunksNS sampleEnv)) ∧
        file ∈ (Files.run sampleEnv samplePut sampleDB).final (Files.filesNS sampleEnv) ∧
        (∀ c ∈ chunks, c ∈
            (Files.run sampleEnv samplePut sampleDB).final (Files.chunksNS sampleEnv)) ∧
        ((Files.run sampleEnv samplePut sampleDB).final (Files.filesNS sampleEnv)).Sublist
          (sampleDB (Files.filesNS sampleEnv) ++ [file]) ∧
        ((Files.run sampleEnv samplePut sampleDB).final (Files.chunksNS sampleEnv)).Sublist
          (sampleDB (Files.chunksNS sampleEnv) ++ chunks)) ∧
      ∀ n, n ≠ Files.filesNS sampleEnv → n ≠ Files.chunksNS sampleEnv →
        (Files.run sampleEnv samplePut sampleDB).final n = sampleDB n :=
  ⟨⟨rfl, by decide, by decide, by decide⟩,
    Files.put_deletion_frame sampleEnv samplePut sampleDB rfl (by decide) (by decide)
      (by decide)⟩
